import Mathlib

/-!
# Interactive chat client (`chatclient.c`): a shallow embedding

The client reads lines from the terminal, frames them as text followed by one NUL
byte, sends them over one stream socket, and prints what the peer sends.

Conventions of the embedding.

* A byte is a natural number (`0` is NUL, `10` is the newline); a C array is a list
  of bytes of the array's size, a C string is the part of an array before its first
  NUL.
* The standard input is the list of bytes still to be read; `fgets` and `fgetc`
  consume it from the front and the empty list is end of input.
* Everything the operating system decides (what `select`, `recv`, `send`, `fcntl`,
  `isatty` return) is an explicit argument.
* A run is the list of externally visible actions of the process, in order.
* `MAX_MSG_LEN`, `MAX_NAME_LEN` and `BUFLEN` come from `util.h`, which is not part
  of the sources at hand, so they are parameters.
-/

set_option maxRecDepth 20000

namespace ChatClient

/-! ## Constants of the C library -/

/-- Value of `EXIT_SUCCESS`. -/
def EXIT_SUCCESS : Nat := 0

/-- Value of `EXIT_FAILURE`. -/
def EXIT_FAILURE : Nat := 1

/-- Value of `EINTR`. -/
def EINTR : Nat := 4

/-- The bytes of the string literal `"bye"`. -/
def bye : List Nat := [98, 121, 101]

/-! ## Observable actions -/

/-- Fixed texts the program writes (the comment gives the call in the source). -/
inductive Msg where
  /-- Call `perror("fgets failed to read user input")`. -/
  | fgetsFailed
  /-- Text `Sorry, limit your message to 1 line of at most %d characters.` on stderr. -/
  | messageTooLong
  /-- Call `perror("send failed")`. -/
  | sendFailed
  /-- Text `Goodbye.` on stdout. -/
  | goodbye
  /-- Text `Warning: Failed to receive incoming message.` on stdout. -/
  | receiveWarning
  /-- Text `Connection to server has been lost.` on stderr. -/
  | connectionLost
  /-- Text `Server initiated shutdown.` on stdout. -/
  | serverShutdown
  /-- Call `perror("select")`. -/
  | selectFailed
  /-- Call `perror("handle_client_socket")`. -/
  | handleClientSocketFailed
  /-- Text `handle_stdin failed` on stderr. -/
  | handleStdinFailed
  /-- Call `printf("\n")`. -/
  | newline
  /-- Call `perror("fcntl: client socket failed")`. -/
  | fcntlFailed
  /-- Call `perror("send username failed")`. -/
  | sendUsernameFailed
  /-- Text `Enter Username: ` on stdout. -/
  | enterUsername
  /-- Text `Error: fgets failed to read username.` on stderr. -/
  | usernameReadFailed
  /-- Text `Sorry, limit your username to %d characters.` on stderr. -/
  | usernameTooLong
  /-- Text `Hello, %s. Let's try to connect to the server.` on stdout. -/
  | hello
  /-- Text `Usage: %s <server IP> <port>` on stderr. -/
  | usage
  /-- Text `Error: Invalid IP address '%s'.` on stderr. -/
  | invalidAddress
  /-- Whatever `parse_int` reports when it returns false. -/
  | portNotANumber
  /-- Text `Error: Port must be in range [1024, 65535].` on stderr. -/
  | portOutOfRange
  /-- Call `perror("socket failed")`. -/
  | socketFailed
  /-- Text `Error: Failed to connect to server. %s.` on stderr. -/
  | connectFailed
  deriving DecidableEq, Repr

/-- One externally visible step of the process. -/
inductive Action where
  /-- Call `fgets(..., stdin)`: one line of interactive input is read. -/
  | readStdin
  /-- Call `select(...)` on the standard input and the socket. -/
  | select
  /-- Call `recv(client_socket, ...)`. -/
  | recv
  /-- Call `send(client_socket, frame, ...)` with these bytes. -/
  | send (frame : List Nat)
  /-- Call `close(client_socket)`. -/
  | close
  /-- Call `connect(client_socket, ...)` and whether it succeeded. -/
  | connect (ok : Bool)
  /-- One of the fixed texts. -/
  | say (m : Msg)
  /-- Call `printf("\n%s\n", inbuf)` with this string. -/
  | display (text : List Nat)
  /-- Call `printf("[%s]: ", username)` followed by nothing else. -/
  | prompt (name : List Nat)
  /-- Call `fflush(stdout)`. -/
  | flush
  /-- A store to an array at an index that is not inside the array. -/
  | storeOutside (index : Int)
  /-- The process ends with this status (`exit` or `return` from `main`). -/
  | exit (status : Nat)
  deriving DecidableEq, Repr

/-- How a handler hands control back: it returns a code, or it ended the process. -/
inductive Ret where
  | returned (code : Int)
  | exited (status : Nat)
  deriving DecidableEq, Repr

/-! ## C strings and arrays -/

/-- Length of the C string held in an array (`strlen`). -/
def strlen : List Nat → Nat
  | [] => 0
  | b :: bs => if b = 0 then 0 else strlen bs + 1

/-- The C string held in an array: the bytes before the first NUL. -/
def cstr (buf : List Nat) : List Nat := buf.take (strlen buf)

/-- Index of the first occurrence of `c` in the C string held in an array
(`strchr` for a `c` that is not NUL); `none` is the null pointer. -/
def strchr : List Nat → Nat → Option Nat
  | [], _ => none
  | b :: bs, c =>
    if b = c then some 0
    else if b = 0 then none
    else (strchr bs c).map (· + 1)

/-- Writing the bytes `bs` into an array from index 0 on. -/
def store (buf bs : List Nat) : List Nat := bs ++ buf.drop bs.length

/-- An array of `size` bytes after `memset(a, 0, sizeof(a)); a[sizeof(a) - 1] = 'x';`. -/
def freshBuffer (size : Nat) : List Nat := (List.replicate size 0).set (size - 1) 120

/-- The assignment `buf[i] = b` for a signed index: inside the array it updates the
array, outside it is recorded as an action and the array is left as it was. -/
def storeByte (buf : List Nat) (i : Int) (b : Nat) : List Nat × List Action :=
  if 0 ≤ i ∧ i < buf.length then (buf.set i.toNat b, []) else (buf, [Action.storeOutside i])

/-! ## Reading the standard input -/

/-- The bytes one `fgets` call takes when it has room for `k` of them: it stops after
a newline, after `k` bytes, or at end of input. The second component is what is left
of the stream. -/
def fgetsBytes : Nat → List Nat → List Nat × List Nat
  | 0, s => ([], s)
  | _ + 1, [] => ([], [])
  | k + 1, c :: s =>
    if c = 10 then ([c], s)
    else (c :: (fgetsBytes k s).1, (fgetsBytes k s).2)

/-- Call `fgets(buf, n, stdin)` without a read error: `none` is the null pointer (end of
input before any byte, or `n ≤ 0`), `some bytes` the bytes stored before the NUL. With
`n = 1` nothing is read and the empty string is stored. -/
def fgets (n : Nat) (stream : List Nat) : Option (List Nat) × List Nat :=
  if n = 0 then (none, stream)
  else if n = 1 then (some [], stream)
  else
    match stream with
    | [] => (none, [])
    | c :: s => (some (fgetsBytes (n - 1) (c :: s)).1, (fgetsBytes (n - 1) (c :: s)).2)

/-- The loop `while ((c = fgetc(stdin)) != '\n' && c != EOF) {}`: what is left of the
stream afterwards. -/
def drainLine : List Nat → List Nat
  | [] => []
  | c :: s => if c = 10 then s else drainLine s

/-- The same loop with the body `found_extra = 1;`: the flag and what is left. -/
def drainExtra : List Nat → Bool × List Nat
  | [] => (false, [])
  | c :: s => if c = 10 then (false, s) else (true, drainLine s)

/-! ## `handle_stdin` -/

/-- What one call of `handle_stdin` did. -/
structure StdinResult where
  ret : Ret
  actions : List Action
  outbuf : List Nat
  stdin : List Nat
  deriving DecidableEq, Repr

/-- Function `handle_stdin`. `readFails` says that `fgets` leaves `errno` set,
`sendFails` that `send` returns -1; `stdin` is the input still to be read. -/
def handle_stdin (MAX_MSG_LEN : Nat) (readFails sendFails : Bool) (stdin : List Nat) :
    StdinResult :=
  let outbuf0 := freshBuffer (MAX_MSG_LEN + 1)
  if readFails then
    ⟨Ret.returned (-1), [Action.readStdin, Action.say Msg.fgetsFailed], outbuf0, stdin⟩
  else
    match fgets MAX_MSG_LEN stdin with
    | (none, rest) => ⟨Ret.returned (-2), [Action.readStdin], outbuf0, rest⟩
    | (some bytes, rest) =>
      let outbuf := store outbuf0 (bytes ++ [0])
      if cstr outbuf = [] ∨ cstr outbuf = [10] then
        ⟨Ret.returned 0, [Action.readStdin], outbuf, rest⟩
      else
        match strchr outbuf 10 with
        | none =>
          ⟨Ret.returned 0, [Action.readStdin, Action.say Msg.messageTooLong],
            outbuf.set 0 0, drainLine rest⟩
        | some newline_index =>
          let outbuf1 := outbuf.set newline_index 0
          let frame := outbuf1.take (strlen outbuf1 + 1)
          if sendFails then
            ⟨Ret.returned (-1),
              [Action.readStdin, Action.send frame, Action.say Msg.sendFailed], outbuf1, rest⟩
          else if cstr outbuf1 = bye then
            ⟨Ret.exited EXIT_SUCCESS,
              [Action.readStdin, Action.send frame, Action.say Msg.goodbye, Action.close,
                Action.exit EXIT_SUCCESS], outbuf1, rest⟩
          else
            ⟨Ret.returned 0, [Action.readStdin, Action.send frame], outbuf1, rest⟩

/-! ## `handle_client_socket` -/

/-- What `recv` does when it is called: it fails with an `errno`, or the peer's bytes
are there (none of them: the peer closed the connection). -/
inductive RecvOutcome where
  | error (errno : Nat)
  | data (bytes : List Nat)
  deriving DecidableEq, Repr

/-- What one call of `handle_client_socket` did. -/
structure SocketResult where
  ret : Ret
  actions : List Action
  inbuf : List Nat
  deriving DecidableEq, Repr

/-- The value `recv(client_socket, inbuf, BUFLEN, 0)` returns. -/
def recvCount (BUFLEN : Nat) : RecvOutcome → Int
  | RecvOutcome.error _ => -1
  | RecvOutcome.data bytes => ((bytes.take BUFLEN).length : Int)

/-- The array `inbuf` after the `recv` call. -/
def recvStore (BUFLEN : Nat) (inbuf : List Nat) : RecvOutcome → List Nat
  | RecvOutcome.error _ => inbuf
  | RecvOutcome.data bytes => store inbuf (bytes.take BUFLEN)

/-- The value of `errno` after the `recv` call when it returned -1. -/
def recvErrno : RecvOutcome → Nat
  | RecvOutcome.error e => e
  | RecvOutcome.data _ => 0

/-- Function `handle_client_socket`; `inbuf` is the array of `BUFLEN + 1` bytes as the
previous call left it. -/
def handle_client_socket (BUFLEN : Nat) (r : RecvOutcome) (inbuf : List Nat) : SocketResult :=
  let nbytes := recvCount BUFLEN r
  let inbuf1 := recvStore BUFLEN inbuf r
  if nbytes = -1 ∧ recvErrno r ≠ EINTR then
    ⟨Ret.returned (-1), [Action.recv, Action.say Msg.receiveWarning], inbuf1⟩
  else if nbytes = 0 then
    ⟨Ret.exited EXIT_FAILURE,
      [Action.recv, Action.say Msg.connectionLost, Action.close, Action.exit EXIT_FAILURE],
      inbuf1⟩
  else
    let w := storeByte inbuf1 nbytes 0
    if cstr w.1 = bye then
      ⟨Ret.exited EXIT_SUCCESS,
        [Action.recv] ++ w.2 ++
          [Action.say Msg.serverShutdown, Action.close, Action.exit EXIT_SUCCESS], w.1⟩
    else
      ⟨Ret.returned 0, [Action.recv] ++ w.2 ++ [Action.display (cstr w.1)], w.1⟩

/-! ## The username loop of `main` -/

/-- How one pass through the body of the username loop ends. -/
inductive NameAttempt where
  /-- The flag `valid_username` is set; the array `username` and the input left. -/
  | accepted (username : List Nat) (stdin : List Nat)
  /-- The loop goes round again (by `continue` or because the flag is still 0). -/
  | again (stdin : List Nat)
  /-- Statement `return EXIT_FAILURE` after `fgets` returned the null pointer. -/
  | failed
  deriving DecidableEq, Repr

/-- The end of the body of the username loop, from `if (strlen(username) > 1)` on. -/
def username_finish (username stdin : List Nat) : NameAttempt :=
  if strlen username > 1 then
    NameAttempt.accepted (username.set (strlen username - 1) 0) stdin
  else NameAttempt.again stdin

/-- One pass through the body of the username loop of `main` (the array `username`
has `MAX_NAME_LEN + 1` bytes). -/
def username_attempt (MAX_NAME_LEN : Nat) (tty : Bool) (stdin : List Nat) :
    List Action × NameAttempt :=
  let ask := if tty then [Action.say Msg.enterUsername] else []
  let username0 := freshBuffer (MAX_NAME_LEN + 1)
  match fgets (MAX_NAME_LEN + 1) stdin with
  | (none, _) => (ask ++ [Action.say Msg.usernameReadFailed], NameAttempt.failed)
  | (some bytes, rest) =>
    let username := store username0 (bytes ++ [0])
    if username.getD MAX_NAME_LEN 0 = 0 ∧ username.getD (MAX_NAME_LEN - 1) 0 ≠ 10 then
      let d := drainExtra rest
      if d.1 then (ask ++ [Action.say Msg.usernameTooLong], NameAttempt.again d.2)
      else (ask, username_finish username d.2)
    else (ask, username_finish username rest)

/-- How the username loop ends. -/
inductive NameResult where
  | valid (username : List Nat) (stdin : List Nat)
  | failed
  /-- The bound on the number of passes was reached. -/
  | unfinished
  deriving DecidableEq, Repr

/-- The username loop of `main`, at most `fuel` passes. -/
def username_loop (MAX_NAME_LEN : Nat) (tty : Bool) : Nat → List Nat → List Action × NameResult
  | 0, _ => ([], NameResult.unfinished)
  | fuel + 1, stdin =>
    match username_attempt MAX_NAME_LEN tty stdin with
    | (acts, NameAttempt.accepted username rest) => (acts, NameResult.valid username rest)
    | (acts, NameAttempt.failed) => (acts, NameResult.failed)
    | (acts, NameAttempt.again rest) =>
      (acts ++ (username_loop MAX_NAME_LEN tty fuel rest).1,
        (username_loop MAX_NAME_LEN tty fuel rest).2)

/-! ## The event loop of `main` -/

/-- The three constants of `util.h` and whether the standard input is a terminal. -/
structure Config where
  MAX_MSG_LEN : Nat
  MAX_NAME_LEN : Nat
  BUFLEN : Nat
  tty : Bool
  deriving DecidableEq, Repr

/-- What the operating system does during one pass of the event loop. -/
structure Wakeup where
  /-- Call `select` returns -1. -/
  selectFails : Bool
  /-- Test `FD_ISSET(client_socket, &read_fds)` after `select`. -/
  socketReady : Bool
  /-- Test `FD_ISSET(STDIN_FILENO, &read_fds)` after `select`. -/
  stdinReady : Bool
  /-- What `recv` does if it is called. -/
  recv : RecvOutcome
  /-- Whether `fgets` in `handle_stdin` fails if it is called. -/
  readFails : Bool
  /-- Whether `send` in `handle_stdin` fails if it is called. -/
  sendFails : Bool
  deriving DecidableEq, Repr

/-- The variables the event loop works on. -/
structure LoopState where
  running : Nat
  stdin : List Nat
  inbuf : List Nat
  outbuf : List Nat
  deriving DecidableEq, Repr

/-- How one pass of the loop body ends. -/
inductive Step where
  /-- The body is done; the loop condition is tested next. -/
  | next (st : LoopState)
  /-- Statement `break`. -/
  | brk
  /-- A handler ended the process. -/
  | halt
  deriving DecidableEq, Repr

/-- The two statements that close the block guarded by `running < 3`. -/
def promptActions (tty : Bool) (username : List Nat) : List Action :=
  (if tty then [Action.prompt (cstr username)] else []) ++ [Action.flush]

/-- The block `if (running < 3) { ... }` of the loop body. -/
def loop_stdin_part (c : Config) (username : List Nat) (w : Wakeup) (st : LoopState) :
    List Action × Step :=
  if st.running < 3 then
    let first := if st.running = 2 then [Action.say Msg.newline] else []
    let running := if st.running = 2 then 1 else st.running
    if w.stdinReady then
      let r := handle_stdin c.MAX_MSG_LEN w.readFails w.sendFails st.stdin
      match r.ret with
      | Ret.exited _ => (first ++ r.actions, Step.halt)
      | Ret.returned status =>
        if status = -1 then
          (first ++ r.actions ++ [Action.say Msg.handleStdinFailed] ++
              promptActions c.tty username,
            Step.next ⟨0, r.stdin, st.inbuf, r.outbuf⟩)
        else if status = -2 then
          (first ++ r.actions ++ [Action.say Msg.newline], Step.brk)
        else
          (first ++ r.actions ++ promptActions c.tty username,
            Step.next ⟨running, r.stdin, st.inbuf, r.outbuf⟩)
    else
      (first ++ promptActions c.tty username, Step.next ⟨running, st.stdin, st.inbuf, st.outbuf⟩)
  else ([], Step.next st)

/-- One pass through the body of `while (running)`. -/
def loop_body (c : Config) (username : List Nat) (w : Wakeup) (st : LoopState) :
    List Action × Step :=
  let acts0 := [Action.select] ++ (if w.selectFails then [Action.say Msg.selectFailed] else [])
  let running0 := if w.selectFails then 0 else st.running
  if w.socketReady then
    let running1 := if running0 = 3 then 2 else running0
    let r := handle_client_socket c.BUFLEN w.recv st.inbuf
    match r.ret with
    | Ret.exited _ => (acts0 ++ r.actions, Step.halt)
    | Ret.returned code =>
      let acts1 := if code = -1 then [Action.say Msg.handleClientSocketFailed] else []
      let running2 := if code = -1 then 0 else running1
      let p := loop_stdin_part c username w ⟨running2, st.stdin, r.inbuf, st.outbuf⟩
      (acts0 ++ r.actions ++ acts1 ++ p.1, p.2)
  else
    let p := loop_stdin_part c username w ⟨running0, st.stdin, st.inbuf, st.outbuf⟩
    (acts0 ++ p.1, p.2)

/-- The statements after the loop: `close(client_socket); return EXIT_SUCCESS;`. -/
def afterLoop : List Action := [Action.close, Action.exit EXIT_SUCCESS]

/-- The loop `while (running) { ... }` followed by the end of `main`, run against the
list of wake-ups the operating system provides. When the list is used up and the loop
is still running, the process stays blocked in `select` and the run has no exit. -/
def event_loop (c : Config) (username : List Nat) : List Wakeup → LoopState → List Action
  | [], st => if st.running = 0 then afterLoop else [Action.select]
  | w :: ws, st =>
    if st.running = 0 then afterLoop
    else
      match loop_body c username w st with
      | (acts, Step.next st1) => acts ++ event_loop c username ws st1
      | (acts, Step.brk) => acts ++ afterLoop
      | (acts, Step.halt) => acts

/-- The state in which `main` enters the loop: `running = 3` and the two global
arrays still zero. -/
def initialState (c : Config) (stdin : List Nat) : LoopState :=
  ⟨3, stdin, List.replicate (c.BUFLEN + 1) 0, List.replicate (c.MAX_MSG_LEN + 1) 0⟩

/-- Function `main` from the point where `connect` has succeeded. -/
def main_connected (c : Config) (fcntlFails sendNameFails : Bool) (username stdin : List Nat)
    (ws : List Wakeup) : List Action :=
  if fcntlFails then [Action.say Msg.fcntlFailed, Action.close, Action.exit EXIT_FAILURE]
  else
    let frame := username.take (strlen username + 1)
    if sendNameFails then
      [Action.send frame, Action.say Msg.sendUsernameFailed, Action.close,
        Action.exit EXIT_FAILURE]
    else
      [Action.send frame, Action.say Msg.newline] ++
        event_loop c username ws (initialState c stdin)

/-- What the command line and the operating system give `main` before the loop. -/
structure Startup where
  argc : Nat
  /-- Call `inet_pton` does not return 0. -/
  addressValid : Bool
  /-- The number `parse_int` stores, `none` when it returns false. -/
  port : Option Int
  socketFails : Bool
  connectFails : Bool
  fcntlFails : Bool
  sendNameFails : Bool
  deriving DecidableEq, Repr

/-- Function `main`. -/
def main (c : Config) (e : Startup) (stdin : List Nat) (ws : List Wakeup) : List Action :=
  if e.argc ≠ 3 then [Action.say Msg.usage, Action.exit EXIT_FAILURE]
  else if !e.addressValid then [Action.say Msg.invalidAddress, Action.exit EXIT_FAILURE]
  else
    match e.port with
    | none => [Action.say Msg.portNotANumber, Action.exit EXIT_FAILURE]
    | some server_port =>
      if server_port < 1024 ∨ server_port > 65535 then
        [Action.say Msg.portOutOfRange, Action.exit EXIT_FAILURE]
      else
        match username_loop c.MAX_NAME_LEN c.tty (stdin.length + 1) stdin with
        | (acts, NameResult.unfinished) => acts
        | (acts, NameResult.failed) => acts ++ [Action.exit EXIT_FAILURE]
        | (acts, NameResult.valid username rest) =>
          if e.socketFails then
            acts ++ [Action.say Msg.hello, Action.say Msg.socketFailed, Action.exit EXIT_FAILURE]
          else if e.connectFails then
            acts ++ [Action.say Msg.hello, Action.connect false, Action.say Msg.connectFailed,
              Action.close, Action.exit EXIT_FAILURE]
          else
            acts ++ [Action.say Msg.hello, Action.connect true] ++
              main_connected c e.fcntlFails e.sendNameFails username rest ws

/-! ## Notions used to state the claims -/

/-- A line the code accepts: non-empty text without NUL and newline whose newline is
among the `MAX_MSG_LEN - 1` bytes `fgets` may take. -/
def Acceptable (MAX_MSG_LEN : Nat) (text : List Nat) : Prop :=
  text ≠ [] ∧ 0 ∉ text ∧ 10 ∉ text ∧ text.length + 2 ≤ MAX_MSG_LEN

instance (M : Nat) (text : List Nat) : Decidable (Acceptable M text) := by
  unfold Acceptable; infer_instance

/-- What the call does after the line was sent, as a function of the text. -/
def afterSend (sendFails : Bool) (text : List Nat) : Ret × List Action :=
  if sendFails then (Ret.returned (-1), [Action.say Msg.sendFailed])
  else if text = bye then
    (Ret.exited EXIT_SUCCESS, [Action.say Msg.goodbye, Action.close, Action.exit EXIT_SUCCESS])
  else (Ret.returned 0, [])

/-- What the spec asks of `handle_stdin` on a line that is too long: nothing is sent,
the line is reported as too long, 0 is returned with an empty `outbuf`, and the input
goes on at `next`. -/
def RejectsTooLong (r : StdinResult) (next : List Nat) : Prop :=
  r.ret = Ret.returned 0 ∧
  r.actions = [Action.readStdin, Action.say Msg.messageTooLong] ∧
  cstr r.outbuf = [] ∧
  r.stdin = next

instance (r : StdinResult) (next : List Nat) : Decidable (RejectsTooLong r next) := by
  unfold RejectsTooLong; infer_instance

/-- The array `inbuf` after a receive of the bytes `rcv` and the store of the NUL. -/
def inbufAfter (rcv inbuf : List Nat) : List Nat := rcv ++ 0 :: inbuf.drop (rcv.length + 1)

/-- The user name one pass of the username loop stored, as a C string, when the pass
accepted the line. -/
def storedName : NameAttempt → Option (List Nat)
  | NameAttempt.accepted username _ => some (cstr username)
  | NameAttempt.again _ => none
  | NameAttempt.failed => none

/-- Values for the constants of `util.h` in the range the spec mentions (a message
limit of 1024 bytes, a name limit of 32 bytes), with the input on a terminal. -/
def sampleConfig : Config := ⟨1024, 32, 1060, true⟩

/-- The array `username` holding the name `al`. -/
def sampleName : List Nat := [97, 108] ++ List.replicate 31 0

/-- Actions that neither close the socket nor end the process. -/
def Action.goesOn : Action → Bool
  | Action.close => false
  | Action.exit _ => false
  | _ => true

/-- Actions that use the socket: `send` and `recv`. -/
def Action.usesSocket : Action → Bool
  | Action.send _ => true
  | Action.recv => true
  | _ => false

/-- Number of `close` calls in a run. -/
def closeCount (tr : List Action) : Nat := tr.count Action.close

/-- The part of a run after its first `close`. -/
def afterClose : List Action → List Action
  | [] => []
  | a :: tr => if a = Action.close then tr else afterClose tr

/-- A stretch of a run without `close` and without exit. -/
def Quiet (tr : List Action) : Prop := ∀ a ∈ tr, a.goesOn = true

instance (tr : List Action) : Decidable (Quiet tr) := by
  unfold Quiet; infer_instance

/-- A run that ends with `close` directly followed by the exit, and has no other
`close` or exit. -/
def Ended (tr : List Action) : Prop :=
  ∃ pre s, Quiet pre ∧ tr = pre ++ [Action.close, Action.exit s]

/-- The shape of the actions of a part of the loop body: ended if a handler ended the
process, and without `close` and exit otherwise. -/
def StepShape (p : List Action × Step) : Prop :=
  (p.2 = Step.halt ∧ Ended p.1) ∨ (p.2 ≠ Step.halt ∧ Quiet p.1)

/-- The frame an action transmits, if it is a `send`. -/
def Action.sent : Action → Option (List Nat)
  | Action.send frame => some frame
  | _ => none

/-- The frames a run transmits, in order. -/
def sentFrames (tr : List Action) : List (List Nat) := tr.filterMap Action.sent

/-- The bytes the operator types for a list of lines: each line and its newline. -/
def typedLines : List (List Nat) → List Nat
  | [] => []
  | l :: ls => l ++ 10 :: typedLines ls

/-- A receive that delivers at least one byte and whose text is not `bye`. -/
def RecvOutcome.ordinary (r : RecvOutcome) (BUFLEN : Nat) : Bool :=
  match r with
  | RecvOutcome.error _ => false
  | RecvOutcome.data bytes =>
    decide (bytes.take BUFLEN ≠ [] ∧ cstr (bytes.take BUFLEN ++ [0]) ≠ bye)

/-- A wake-up in which nothing fails and the socket, if it is ready, delivers a
message other than `bye`. -/
def Wakeup.calm (c : Config) (w : Wakeup) : Prop :=
  w.selectFails = false ∧ w.readFails = false ∧ w.sendFails = false ∧
    (w.socketReady = true → w.recv.ordinary c.BUFLEN = true)

instance (c : Config) (w : Wakeup) : Decidable (w.calm c) := by
  unfold Wakeup.calm; infer_instance

/-! ## Facts about the C library functions -/

theorem strlen_append_nul (t r : List Nat) (h : 0 ∉ t) : strlen (t ++ 0 :: r) = t.length := by
  induction t with
  | nil => simp [strlen]
  | cons a t ih =>
    have ha : a ≠ 0 := fun e => h (by simp [e])
    have ht : 0 ∉ t := fun e => h (by simp [e])
    simp [strlen, ha, ih ht]

theorem cstr_append_nul (t r : List Nat) (h : 0 ∉ t) : cstr (t ++ 0 :: r) = t := by
  simp [cstr, strlen_append_nul t r h]

theorem strchr_append_newline (t r : List Nat) (h0 : 0 ∉ t) (h10 : 10 ∉ t) :
    strchr (t ++ 10 :: r) 10 = some t.length := by
  induction t with
  | nil => simp [strchr]
  | cons a t ih =>
    have ha0 : a ≠ 0 := fun e => h0 (by simp [e])
    have ha10 : a ≠ 10 := fun e => h10 (by simp [e])
    have ht0 : 0 ∉ t := fun e => h0 (by simp [e])
    have ht10 : 10 ∉ t := fun e => h10 (by simp [e])
    simp [strchr, ha0, ha10, ih ht0 ht10]

theorem strchr_none_of_not_mem (buf : List Nat) (h : 10 ∉ cstr buf) : strchr buf 10 = none := by
  induction buf with
  | nil => simp [strchr]
  | cons a t ih =>
    by_cases ha0 : a = 0
    · subst ha0; simp [strchr]
    · have ha10 : a ≠ 10 := by
        intro e; apply h; simp [cstr, strlen, ha0, e]
      have ht : 10 ∉ cstr t := by
        intro e; apply h
        simp only [cstr, strlen, ha0, if_false, List.take_succ_cons, List.mem_cons]
        exact Or.inr e
      simp [strchr, ha0, ha10, ih ht]

theorem strchr_stored {bytes tail : List Nat} {i : Nat}
    (h : strchr (bytes ++ 0 :: tail) 10 = some i) :
    ∃ t more, bytes = t ++ 10 :: more ∧ 0 ∉ t ∧ 10 ∉ t ∧ i = t.length := by
  induction bytes generalizing i with
  | nil => simp [strchr] at h
  | cons b bs ih =>
    by_cases hb10 : b = 10
    · subst hb10
      simp [strchr] at h
      exact ⟨[], bs, by simp, by simp, by simp, by simp [h]⟩
    · by_cases hb0 : b = 0
      · subst hb0; simp [strchr] at h
      · simp only [List.cons_append, strchr, hb10, hb0, if_false, Option.map_eq_some'] at h
        obtain ⟨j, hj, hji⟩ := h
        obtain ⟨t, more, hbs, h0, h10, hlen⟩ := ih hj
        refine ⟨b :: t, more, by simp [hbs], ?_, ?_, by simp [← hji, hlen]⟩
        · simp only [List.mem_cons, not_or]; exact ⟨fun e => hb0 e.symm, h0⟩
        · simp only [List.mem_cons, not_or]; exact ⟨fun e => hb10 e.symm, h10⟩

theorem fgetsBytes_length (k : Nat) (s : List Nat) : (fgetsBytes k s).1.length ≤ k := by
  induction k generalizing s with
  | zero => simp [fgetsBytes]
  | succ k ih =>
    cases s with
    | nil => simp [fgetsBytes]
    | cons c s =>
      by_cases hc : c = 10
      · simp [fgetsBytes, hc]
      · simp [fgetsBytes, hc]; exact ih s

theorem fgetsBytes_append (k : Nat) (s : List Nat) :
    (fgetsBytes k s).1 ++ (fgetsBytes k s).2 = s := by
  induction k generalizing s with
  | zero => simp [fgetsBytes]
  | succ k ih =>
    cases s with
    | nil => simp [fgetsBytes]
    | cons c s =>
      by_cases hc : c = 10
      · simp [fgetsBytes, hc]
      · simp [fgetsBytes, hc, ih s]

theorem fgetsBytes_newline_last {k : Nat} {s t more : List Nat}
    (h : (fgetsBytes k s).1 = t ++ 10 :: more) (h10 : 10 ∉ t) : more = [] := by
  induction k generalizing s t with
  | zero => simp [fgetsBytes] at h
  | succ k ih =>
    cases s with
    | nil => simp [fgetsBytes] at h
    | cons c s =>
      by_cases hc : c = 10
      · subst hc
        simp only [fgetsBytes, if_true] at h
        cases t with
        | nil => simpa using h.symm
        | cons a t => simp at h
      · simp only [fgetsBytes, hc, if_false] at h
        cases t with
        | nil => simp at h; exact absurd h.1 hc
        | cons a t =>
          simp only [List.cons_append, List.cons.injEq] at h
          exact ih h.2 (fun e => h10 (by simp [e]))

theorem fgetsBytes_line (k : Nat) (t rest : List Nat) (h10 : 10 ∉ t) (hk : t.length < k) :
    fgetsBytes k (t ++ 10 :: rest) = (t ++ [10], rest) := by
  induction t generalizing k with
  | nil =>
    cases k with
    | zero => simp at hk
    | succ k => simp [fgetsBytes]
  | cons a t ih =>
    have ha10 : a ≠ 10 := fun e => h10 (by simp [e])
    have ht10 : 10 ∉ t := fun e => h10 (by simp [e])
    cases k with
    | zero => simp at hk
    | succ k =>
      have hk2 : t.length < k := by simpa using hk
      simp [fgetsBytes, ha10, ih k ht10 hk2]

theorem fgetsBytes_full (k : Nat) (t rest : List Nat) (h10 : 10 ∉ t.take k) (hk : k ≤ t.length) :
    fgetsBytes k (t ++ rest) = (t.take k, t.drop k ++ rest) := by
  induction k generalizing t with
  | zero => simp [fgetsBytes]
  | succ k ih =>
    cases t with
    | nil => simp at hk
    | cons a t =>
      have ha10 : a ≠ 10 := fun e => h10 (by simp [e])
      have ht10 : 10 ∉ t.take k := fun e => h10 (by simp [e])
      have hk2 : k ≤ t.length := by simpa using hk
      simp [fgetsBytes, ha10, ih t ht10 hk2]

theorem drainLine_line (t rest : List Nat) (h10 : 10 ∉ t) : drainLine (t ++ 10 :: rest) = rest := by
  induction t with
  | nil => simp [drainLine]
  | cons a t ih =>
    have ha10 : a ≠ 10 := fun e => h10 (by simp [e])
    have ht10 : 10 ∉ t := fun e => h10 (by simp [e])
    simp [drainLine, ha10, ih ht10]

theorem drainLine_eof (t : List Nat) (h10 : 10 ∉ t) : drainLine t = [] := by
  induction t with
  | nil => simp [drainLine]
  | cons a t ih =>
    have ha10 : a ≠ 10 := fun e => h10 (by simp [e])
    have ht10 : 10 ∉ t := fun e => h10 (by simp [e])
    simp [drainLine, ha10, ih ht10]

theorem fgets_of_ne_nil (n : Nat) (s : List Nat) (hn : 2 ≤ n) (hs : s ≠ []) :
    fgets n s = (some (fgetsBytes (n - 1) s).1, (fgetsBytes (n - 1) s).2) := by
  have h0 : n ≠ 0 := by omega
  have h1 : n ≠ 1 := by omega
  cases s with
  | nil => exact absurd rfl hs
  | cons c s => simp [fgets, h0, h1]

theorem set_append_length (t r : List Nat) (a b : Nat) :
    (t ++ a :: r).set t.length b = t ++ b :: r := by
  induction t with
  | nil => simp
  | cons x t ih => simp [ih]

theorem strlen_cons_of_ne_zero (a : Nat) (r : List Nat) (h : a ≠ 0) :
    strlen (a :: r) = strlen r + 1 := by
  simp [strlen, h]

theorem cstr_cons_of_ne_zero (a : Nat) (r : List Nat) (h : a ≠ 0) :
    cstr (a :: r) = a :: cstr r := by
  simp [cstr, strlen, h]

theorem cstr_cons_zero (r : List Nat) : cstr (0 :: r) = [] := by
  simp [cstr, strlen]

/-! ## What `handle_stdin` does on the three kinds of line -/

theorem handle_stdin_accepts (M : Nat) (sf : Bool) (t rest : List Nat) (h : Acceptable M t) :
    (handle_stdin M false sf (t ++ 10 :: rest)).ret = (afterSend sf t).1 ∧
    (handle_stdin M false sf (t ++ 10 :: rest)).actions =
      [Action.readStdin, Action.send (t ++ [0])] ++ (afterSend sf t).2 ∧
    cstr (handle_stdin M false sf (t ++ 10 :: rest)).outbuf = t ∧
    (handle_stdin M false sf (t ++ 10 :: rest)).stdin = rest := by
  obtain ⟨hne, h0, h10, hlen⟩ := h
  have hfg : fgets M (t ++ 10 :: rest) = (some (t ++ [10]), rest) := by
    rw [fgets_of_ne_nil M _ (by omega) (by simp), fgetsBytes_line (M - 1) t rest h10 (by omega)]
  have hst : ∀ tl : List Nat, strlen (t ++ 0 :: tl) = t.length :=
    fun tl => strlen_append_nul _ tl h0
  have h010 : 0 ∉ t ++ [10] := by
    intro e; rcases List.mem_append.1 e with e | e
    · exact h0 e
    · simp at e
  have hc1 : ∀ tl : List Nat, cstr (t ++ 10 :: 0 :: tl) = t ++ [10] := by
    intro tl
    have := cstr_append_nul (t ++ [10]) tl h010
    simpa using this
  have hsc : ∀ tl : List Nat, strchr (t ++ 10 :: tl) 10 = some t.length :=
    fun tl => strchr_append_newline _ tl h0 h10
  have hstore : store (freshBuffer (M + 1)) (t ++ [10] ++ [0]) =
      t ++ 10 :: 0 :: (freshBuffer (M + 1)).drop (t.length + 2) := by
    simp [store]
  have hne1 : ¬ (t ++ [10] = [] ∨ t ++ [10] = [10]) := by
    simp [hne]
  have hc2 : ∀ tl : List Nat, cstr (t ++ 0 :: tl) = t :=
    fun tl => cstr_append_nul _ tl h0
  have htake : ∀ tl : List Nat, List.take (t.length + 1) (t ++ 0 :: tl) = t ++ [0] := by
    intro tl
    rw [List.take_append_eq_append_take]
    simp
  unfold handle_stdin
  simp only [hfg, hstore, hc1, hsc, set_append_length, hst, Bool.false_eq_true, if_false,
    hne1, hc2, htake, afterSend]
  cases sf with
  | true => refine ⟨?_, ?_, ?_, ?_⟩ <;> first | trivial | rfl | exact hc2 _
  | false =>
    by_cases hb : t = bye
    · simp only [Bool.false_eq_true, if_false, if_pos hb]
      refine ⟨?_, ?_, ?_, ?_⟩ <;> first | trivial | rfl | exact hc2 _
    · simp only [Bool.false_eq_true, if_false, if_neg hb]
      refine ⟨?_, ?_, ?_, ?_⟩ <;> first | trivial | rfl | exact hc2 _

theorem handle_stdin_rejects (M : Nat) (sf : Bool) (a : Nat) (line tl : List Nat)
    (hM : 2 ≤ M) (ha : a ≠ 0) (h10 : 10 ∉ (a :: line).take (M - 1))
    (hlen : M - 1 ≤ (a :: line).length) :
    (handle_stdin M false sf ((a :: line) ++ tl)).ret = Ret.returned 0 ∧
    (handle_stdin M false sf ((a :: line) ++ tl)).actions =
      [Action.readStdin, Action.say Msg.messageTooLong] ∧
    cstr (handle_stdin M false sf ((a :: line) ++ tl)).outbuf = [] ∧
    (handle_stdin M false sf ((a :: line) ++ tl)).stdin =
      drainLine ((a :: line).drop (M - 1) ++ tl) := by
  have hfg : fgets M ((a :: line) ++ tl) =
      (some ((a :: line).take (M - 1)), (a :: line).drop (M - 1) ++ tl) := by
    rw [fgets_of_ne_nil M _ hM (by simp), fgetsBytes_full (M - 1) (a :: line) tl h10 hlen]
  obtain ⟨k, hk⟩ : ∃ k, M - 1 = k + 1 := ⟨M - 2, by omega⟩
  rw [hk] at hfg h10
  have ha10 : a ≠ 10 := fun e => h10 (by simp [e])
  have hstore : store (freshBuffer (M + 1)) ((a :: line).take (k + 1) ++ [0]) =
      a :: (line.take k ++ 0 :: (freshBuffer (M + 1)).drop ((line.take k).length + 2)) := by
    simp [store]
  have hsc : strchr (a :: (line.take k ++ 0 :: (freshBuffer (M + 1)).drop
      ((line.take k).length + 2))) 10 = none := by
    cases hs : strchr (a :: (line.take k ++ 0 :: (freshBuffer (M + 1)).drop
      ((line.take k).length + 2))) 10 with
    | none => rfl
    | some i =>
      have hs2 : strchr ((a :: line.take k) ++ 0 :: (freshBuffer (M + 1)).drop
          ((line.take k).length + 2)) 10 = some i := by simpa using hs
      obtain ⟨t, more, hb, -, -, -⟩ := strchr_stored hs2
      exfalso; apply h10
      simp only [List.take_succ_cons]
      rw [hb]; simp
  unfold handle_stdin
  simp only [hfg, hstore, hsc, Bool.false_eq_true, if_false, hk]
  simp [cstr_cons_of_ne_zero a _ ha, ha10, cstr_cons_zero]

theorem handle_stdin_nul_first (M : Nat) (sf : Bool) (s : List Nat) (hM : 2 ≤ M) :
    (handle_stdin M false sf (0 :: s)).ret = Ret.returned 0 ∧
    (handle_stdin M false sf (0 :: s)).actions = [Action.readStdin] ∧
    (handle_stdin M false sf (0 :: s)).stdin = (fgetsBytes (M - 2) s).2 := by
  have hfg : fgets M (0 :: s) =
      (some (0 :: (fgetsBytes (M - 2) s).1), (fgetsBytes (M - 2) s).2) := by
    rw [fgets_of_ne_nil M _ hM (by simp)]
    obtain ⟨k, hk⟩ : ∃ k, M - 1 = k + 1 := ⟨M - 2, by omega⟩
    have hk2 : M - 2 = k := by omega
    rw [hk, hk2]
    simp [fgetsBytes]
  unfold handle_stdin
  simp only [hfg, Bool.false_eq_true, if_false]
  simp [store, cstr_cons_zero]

theorem not_mem_replicate (n : Nat) {a b : Nat} (h : b ≠ a) : b ∉ List.replicate n a :=
  fun e => h (List.eq_of_mem_replicate e)

theorem fgets_some {n : Nat} {s bytes rest : List Nat} (h : fgets n s = (some bytes, rest)) :
    bytes ++ rest = s ∧ bytes.length + 1 ≤ n ∧
      ∀ t more, bytes = t ++ 10 :: more → 10 ∉ t → more = [] := by
  unfold fgets at h
  by_cases h0 : n = 0
  · simp [h0] at h
  · by_cases h1 : n = 1
    · simp [h1] at h
      obtain ⟨hb, hr⟩ := h
      subst hb; subst hr
      refine ⟨by simp, by simp [h1], ?_⟩
      intro t more e; simp at e
    · cases s with
      | nil => simp [h0, h1] at h
      | cons c s =>
        simp only [h0, h1, if_false, Prod.mk.injEq, Option.some.injEq] at h
        obtain ⟨hb, hr⟩ := h
        refine ⟨?_, ?_, ?_⟩
        · rw [← hb, ← hr]; exact fgetsBytes_append _ _
        · have := fgetsBytes_length (n - 1) (c :: s)
          rw [hb] at this; omega
        · intro t more e h10
          rw [← hb] at e
          exact fgetsBytes_newline_last e h10

/-! ## Claims about `handle_stdin` -/

/-- Where the drain works: with `MAX_MSG_LEN` at least 2 and a read that does not fail,
every line of more than `MAX_MSG_LEN` bytes before its newline whose first byte is not
NUL makes `handle_stdin` send nothing, report the line as too long, return 0 with an
empty `outbuf`, and leave the input exactly at the first byte after that newline; when
the input ends before a newline, it is consumed to its end. -/
theorem handle_stdin_too_long_line (M : Nat) (sf : Bool) (line rest : List Nat)
    (hM : 2 ≤ M) (hlong : M < line.length) (h10 : 10 ∉ line) (hfirst : line.head? ≠ some 0) :
    RejectsTooLong (handle_stdin M false sf (line ++ 10 :: rest)) rest ∧
    RejectsTooLong (handle_stdin M false sf line) [] := by
  cases line with
  | nil => simp at hlong
  | cons a line =>
    have ha : a ≠ 0 := by
      intro e; apply hfirst; simp [e]
    have h10t : 10 ∉ (a :: line).take (M - 1) := fun e => h10 (List.mem_of_mem_take e)
    have h10d : 10 ∉ (a :: line).drop (M - 1) := fun e => h10 (List.mem_of_mem_drop e)
    have hlen : M - 1 ≤ (a :: line).length := by omega
    constructor
    · obtain ⟨h1, h2, h3, h4⟩ :=
        handle_stdin_rejects M sf a line (10 :: rest) hM ha h10t hlen
      exact ⟨h1, h2, h3, by rw [h4, drainLine_line _ _ h10d]⟩
    · obtain ⟨h1, h2, h3, h4⟩ := handle_stdin_rejects M sf a line [] hM ha h10t hlen
      rw [List.append_nil] at h1 h2 h3 h4
      refine ⟨h1, h2, h3, ?_⟩
      rw [h4, List.append_nil, drainLine_eof _ h10d]

/-- C3, the code at the failing input: a line of 1025 bytes (NUL, then 1024 letters
`a`) and a newline, followed by the line `b`, with `MAX_MSG_LEN = 1024`. The line is
longer than the bound, yet `handle_stdin` returns at the test for the empty string,
before the report and the drain loop: it reports nothing and stops after 1023 bytes, so
the next read starts inside the oversized line, at `aa`. The username loop of `main`,
given the same kind of line (NUL, 32 letters `a`, newline, with `MAX_NAME_LEN = 32`),
does report it and does drain it to the line `b`. -/
theorem leading_nul_line_is_not_drained :
    ¬ RejectsTooLong
        (handle_stdin 1024 false false ((0 :: List.replicate 1024 97) ++ 10 :: [98, 10]))
        [98, 10] ∧
      (handle_stdin 1024 false false
        ((0 :: List.replicate 1024 97) ++ 10 :: [98, 10])).actions = [Action.readStdin] ∧
      (handle_stdin 1024 false false
        ((0 :: List.replicate 1024 97) ++ 10 :: [98, 10])).stdin = [97, 97, 10, 98, 10] ∧
      username_attempt 32 false ((0 :: List.replicate 32 97) ++ 10 :: [98, 10]) =
        ([Action.say Msg.usernameTooLong], NameAttempt.again [98, 10]) := by
  have hname : username_attempt 32 false ((0 :: List.replicate 32 97) ++ 10 :: [98, 10]) =
      ([Action.say Msg.usernameTooLong], NameAttempt.again [98, 10]) := by decide
  obtain ⟨-, h2, h3⟩ := handle_stdin_nul_first 1024 false
    (List.replicate 1024 97 ++ 10 :: [98, 10]) (by decide)
  have hf : fgetsBytes (1024 - 2) (List.replicate 1024 97 ++ 10 :: [98, 10]) =
      ((List.replicate 1024 97).take (1024 - 2),
        (List.replicate 1024 97).drop (1024 - 2) ++ 10 :: [98, 10]) :=
    fgetsBytes_full _ _ _
      (fun e => not_mem_replicate 1024 (by decide) (List.mem_of_mem_take e))
      (by rw [List.length_replicate]; decide)
  rw [hf] at h3
  have hd : (List.replicate 1024 97).drop (1024 - 2) = [97, 97] := by
    rw [List.drop_replicate]; rfl
  rw [hd] at h3
  refine ⟨?_, h2, h3, hname⟩
  rintro ⟨-, hact, -, -⟩
  rw [List.cons_append, h2] at hact
  simp at hact

/-- C4, the code at the failing input: with `MAX_MSG_LEN = 1024`, the line made of
1023 letters `a` and a newline is not accepted. Nothing is sent, the line is reported as
too long, and the newline is consumed by the drain loop. (A text of 1022 letters is the
longest one the call sends.) -/
theorem handle_stdin_rejects_longest_allowed_line :
    (handle_stdin 1024 false false (List.replicate 1023 97 ++ [10])).actions =
        [Action.readStdin, Action.say Msg.messageTooLong] ∧
      (handle_stdin 1024 false false (List.replicate 1023 97 ++ [10])).ret = Ret.returned 0 ∧
      (handle_stdin 1024 false false (List.replicate 1023 97 ++ [10])).stdin = [] ∧
      (handle_stdin 1024 false false (List.replicate 1022 97 ++ [10])).actions =
        [Action.readStdin, Action.send (List.replicate 1022 97 ++ [0])] := by
  have hacc : Acceptable 1024 (List.replicate 1022 97) :=
    ⟨by rw [show List.replicate 1022 97 = 97 :: List.replicate 1021 97 from rfl]; simp,
      not_mem_replicate 1022 (by decide), not_mem_replicate 1022 (by decide),
      by rw [List.length_replicate]⟩
  have hb : List.replicate 1022 97 ≠ bye := by
    intro e
    have := congrArg List.length e
    rw [List.length_replicate] at this
    exact absurd this (by decide)
  obtain ⟨-, a2, -, -⟩ := handle_stdin_accepts 1024 false (List.replicate 1022 97) [] hacc
  simp only [afterSend, Bool.false_eq_true, if_false, if_neg hb, List.append_nil] at a2
  have e : List.replicate 1023 97 = 97 :: List.replicate 1022 97 := rfl
  obtain ⟨h1, h2, -, h4⟩ := handle_stdin_rejects 1024 false 97 (List.replicate 1022 97) [10]
    (by decide) (by decide)
    (by rw [← e]; exact fun h => not_mem_replicate 1023 (by decide) (List.mem_of_mem_take h))
    (by rw [← e, List.length_replicate])
  rw [← e] at h1 h2 h4
  refine ⟨h2, h1, ?_, a2⟩
  rw [h4]
  have hd : (List.replicate 1023 97).drop (1024 - 1) = [] := by
    rw [List.drop_replicate]; rfl
  rw [hd]
  rfl

/-- The shape of a frame, call by call: every byte sequence `handle_stdin` passes to
`send` is a non-empty text without NUL and without newline followed by one NUL, at most
`MAX_MSG_LEN` bytes in all, and the input the call found was that text, a newline, and
what the call leaves unread. This says nothing about where in the operator's line the
call started to read. -/
theorem handle_stdin_sends_whole_line (M : Nat) (rf sf : Bool) (stdin frame : List Nat)
    (h : Action.send frame ∈ (handle_stdin M rf sf stdin).actions) :
    ∃ text, stdin = text ++ 10 :: (handle_stdin M rf sf stdin).stdin ∧
      text ≠ [] ∧ 0 ∉ text ∧ 10 ∉ text ∧ frame = text ++ [0] ∧ frame.length ≤ M := by
  unfold handle_stdin at h ⊢
  cases rf with
  | true => simp at h
  | false =>
    simp only [Bool.false_eq_true, if_false] at h ⊢
    rcases hfg : fgets M stdin with ⟨_ | bytes, rest⟩
    · simp [hfg] at h
    · simp only [hfg] at h ⊢
      obtain ⟨happ, hlen, hlast⟩ := fgets_some hfg
      have hstore : store (freshBuffer (M + 1)) (bytes ++ [0]) =
          bytes ++ 0 :: (freshBuffer (M + 1)).drop (bytes.length + 1) := by
        simp [store]
      rw [hstore] at h ⊢
      by_cases hc : cstr (bytes ++ 0 :: (freshBuffer (M + 1)).drop (bytes.length + 1)) = [] ∨
          cstr (bytes ++ 0 :: (freshBuffer (M + 1)).drop (bytes.length + 1)) = [10]
      · simp [hc] at h
      · simp only [hc, if_false] at h ⊢
        cases hs : strchr (bytes ++ 0 :: (freshBuffer (M + 1)).drop (bytes.length + 1)) 10 with
        | none => simp [hs] at h
        | some i =>
          obtain ⟨t, more, hb, h0, h10, hi⟩ := strchr_stored hs
          have hmore := hlast t more hb h10
          subst hmore
          subst hi
          subst hb
          have ht : t ≠ [] := by
            intro e
            apply hc
            subst e
            right
            simp [cstr, strlen]
          have hset : ∀ tl : List Nat, (t ++ [10] ++ 0 :: tl).set t.length 0 = t ++ 0 :: 0 :: tl := by
            intro tl
            simp
          have htake : ∀ tl : List Nat,
              List.take (strlen (t ++ 0 :: tl) + 1) (t ++ 0 :: tl) = t ++ [0] := by
            intro tl
            rw [strlen_append_nul t tl h0, List.take_append_eq_append_take]
            simp
          simp only [hs, hset, htake] at h ⊢
          have hframe : frame = t ++ [0] := by
            cases sf with
            | true => simpa using h
            | false =>
              simp only [Bool.false_eq_true, if_false] at h
              split at h <;> simpa using h
          have hrest : (if sf = true then
                (⟨Ret.returned (-1),
                  [Action.readStdin, Action.send (t ++ [0]), Action.say Msg.sendFailed],
                  t ++ 0 :: 0 :: (freshBuffer (M + 1)).drop ((t ++ [10]).length + 1),
                  rest⟩ : StdinResult)
              else if cstr (t ++ 0 :: 0 ::
                  (freshBuffer (M + 1)).drop ((t ++ [10]).length + 1)) = bye then
                ⟨Ret.exited EXIT_SUCCESS,
                  [Action.readStdin, Action.send (t ++ [0]), Action.say Msg.goodbye,
                    Action.close, Action.exit EXIT_SUCCESS],
                  t ++ 0 :: 0 :: (freshBuffer (M + 1)).drop ((t ++ [10]).length + 1), rest⟩
              else
                ⟨Ret.returned 0, [Action.readStdin, Action.send (t ++ [0])],
                  t ++ 0 :: 0 :: (freshBuffer (M + 1)).drop ((t ++ [10]).length + 1),
                  rest⟩).stdin = rest := by
            split
            · rfl
            · split <;> rfl
          refine ⟨t, ?_, ht, h0, h10, hframe, ?_⟩
          · rw [hrest, ← happ]; simp
          · rw [hframe]
            simp only [List.length_append, List.length_singleton] at hlen ⊢
            omega

/-! ## Claims about `handle_client_socket` -/

theorem cstr_append_nul_tail (r tl tl2 : List Nat) :
    cstr (r ++ 0 :: tl) = cstr (r ++ 0 :: tl2) := by
  induction r with
  | nil => simp [cstr_cons_zero]
  | cons a r ih =>
    by_cases ha : a = 0
    · subst ha; simp [cstr_cons_zero]
    · simp [cstr_cons_of_ne_zero _ _ ha, ih]

theorem inbufAfter_length (rcv inbuf : List Nat) (B : Nat) (hr : rcv.length ≤ B)
    (hbuf : inbuf.length = B + 1) : (inbufAfter rcv inbuf).length = B + 1 := by
  simp [inbufAfter, hbuf]; omega

theorem handle_client_socket_data (B : Nat) (data inbuf : List Nat) (hne : data.take B ≠ [])
    (hbuf : inbuf.length = B + 1) :
    handle_client_socket B (RecvOutcome.data data) inbuf =
      if cstr (data.take B ++ [0]) = bye then
        ⟨Ret.exited EXIT_SUCCESS,
          [Action.recv, Action.say Msg.serverShutdown, Action.close, Action.exit EXIT_SUCCESS],
          inbufAfter (data.take B) inbuf⟩
      else
        ⟨Ret.returned 0, [Action.recv, Action.display (cstr (data.take B ++ [0]))],
          inbufAfter (data.take B) inbuf⟩ := by
  have hr : (data.take B).length ≤ B := by simp
  unfold handle_client_socket
  simp only [recvCount, recvStore, recvErrno]
  generalize data.take B = rcv at hne hr ⊢
  have hpos : 0 < rcv.length := List.length_pos.2 hne
  have h1 : ¬ (((rcv.length : Nat) : Int) = -1 ∧ (0 : Nat) ≠ EINTR) := by
    intro h; omega
  have h2 : ¬ (((rcv.length : Nat) : Int) = 0) := by omega
  obtain ⟨x, tl, hx⟩ : ∃ x tl, inbuf.drop rcv.length = x :: tl := by
    cases hd : inbuf.drop rcv.length with
    | nil =>
      have := congrArg List.length hd
      simp [hbuf] at this; omega
    | cons x tl => exact ⟨x, tl, rfl⟩
  have htl : inbuf.drop (rcv.length + 1) = tl := by
    have : inbuf.drop (rcv.length + 1) = (inbuf.drop rcv.length).drop 1 := by
      rw [List.drop_drop]
    rw [this, hx]; rfl
  have hlen : (store inbuf rcv).length = B + 1 := by
    simp [store, hbuf]; omega
  have h3 : (0 : Int) ≤ ((rcv.length : Nat) : Int) ∧
      ((rcv.length : Nat) : Int) < (((store inbuf rcv).length : Nat) : Int) := by
    rw [hlen]; omega
  have hset : (store inbuf rcv).set rcv.length 0 = inbufAfter rcv inbuf := by
    simp only [store, inbufAfter, hx, htl, set_append_length]
  have hc : cstr (inbufAfter rcv inbuf) = cstr (rcv ++ [0]) := cstr_append_nul_tail _ _ _
  simp only [h1, h2, if_false, storeByte, h3, and_self, if_true,
    Int.toNat_ofNat, hset, hc, List.append_nil, List.cons_append, List.nil_append]

theorem handle_client_socket_eintr (B : Nat) (inbuf : List Nat) (h : cstr inbuf ≠ bye) :
    handle_client_socket B (RecvOutcome.error EINTR) inbuf =
      ⟨Ret.returned 0,
        [Action.recv, Action.storeOutside (-1), Action.display (cstr inbuf)], inbuf⟩ := by
  unfold handle_client_socket
  simp [recvCount, recvStore, recvErrno, storeByte, h]

/-- C6, the code at the failing input: `recv` returns -1 with `errno = EINTR` while
`inbuf` (here with `BUFLEN = 1060`) still holds the earlier message `hi`. The call
returns 0, but it stores a NUL at index -1, outside `inbuf`, and prints the old
message again. -/
theorem handle_client_socket_interrupted_prints_and_stores :
    handle_client_socket 1060 (RecvOutcome.error EINTR) ([104, 105] ++ 0 :: List.replicate 1058 0) =
      ⟨Ret.returned 0,
        [Action.recv, Action.storeOutside (-1), Action.display [104, 105]],
        [104, 105] ++ 0 :: List.replicate 1058 0⟩ := by
  have hc : cstr ([104, 105] ++ 0 :: List.replicate 1058 0) = [104, 105] :=
    cstr_append_nul _ _ (by decide)
  have h := handle_client_socket_eintr 1060 ([104, 105] ++ 0 :: List.replicate 1058 0)
    (by rw [hc]; decide)
  rw [hc] at h
  exact h

/-! ## Claims about the username loop -/

theorem freshBuffer_length (n : Nat) : (freshBuffer n).length = n := by
  simp [freshBuffer]

theorem getD_append_add (t r : List Nat) (k d : Nat) :
    (t ++ r).getD (t.length + k) d = r.getD k d := by
  induction t with
  | nil => simp
  | cons a t ih => simpa [Nat.succ_add] using ih

theorem username_attempt_full_length (tty : Bool) (init rest : List Nat) (z : Nat)
    (hne : init ≠ []) (h0 : 0 ∉ init) (h10 : 10 ∉ init) (hz0 : z ≠ 0) (hz10 : z ≠ 10) :
    storedName (username_attempt (init.length + 1) tty (init ++ z :: 10 :: rest)).2 =
      some init := by
  have hfg : fgets (init.length + 1 + 1) (init ++ z :: 10 :: rest) =
      (some (init ++ [z]), 10 :: rest) := by
    rw [fgets_of_ne_nil _ _ (by omega) (by simp)]
    have h := fgetsBytes_full (init.length + 1) (init ++ [z]) (10 :: rest)
      (by
        intro e
        rcases List.mem_append.1 (List.mem_of_mem_take e) with e | e
        · exact h10 e
        · simp at e; exact hz10 e.symm)
      (by simp)
    have ht : (init ++ [z]).take (init.length + 1) = init ++ [z] :=
      List.take_of_length_le (by simp)
    have hd : (init ++ [z]).drop (init.length + 1) = [] :=
      List.drop_of_length_le (by simp)
    rw [ht, hd] at h
    have h2 : fgetsBytes (init.length + 1 + 1 - 1) (init ++ z :: 10 :: rest) =
        (init ++ [z], 10 :: rest) := by simpa using h
    rw [h2]
  have hstore : store (freshBuffer (init.length + 1 + 1)) (init ++ [z] ++ [0]) =
      init ++ [z, 0] := by
    simp [store, freshBuffer_length]
  have hg1 : (init ++ [z, 0]).getD (init.length + 1) 0 = 0 := by
    rw [getD_append_add]; rfl
  have hg2 : (init ++ [z, 0]).getD (init.length + 1 - 1) 0 ≠ 10 := by
    have e : init.length + 1 - 1 = init.length + 0 := by omega
    rw [e, getD_append_add]; exact hz10
  have hz : 0 ∉ init ++ [z] := by
    intro e
    rcases List.mem_append.1 e with e | e
    · exact h0 e
    · simp at e; exact hz0 e.symm
  have hlen : strlen (init ++ [z, 0]) = init.length + 1 := by
    have := strlen_append_nul (init ++ [z]) [] hz
    simpa using this
  have hpos : 0 < init.length := List.length_pos.2 hne
  have hset : (init ++ [z, 0]).set (init.length + 1 - 1) 0 = init ++ [0, 0] := by
    simp
  unfold username_attempt
  simp only [hfg, hstore, hg1, hg2, drainExtra, if_true, username_finish, hlen, hset,
    ne_eq, not_false_eq_true, and_self, Bool.false_eq_true, if_false]
  have hgt : init.length + 1 > 1 := by omega
  simp only [hgt, if_true, storedName]
  rw [cstr_append_nul init [0] h0]

/-- C10, the code at the failing input: with `MAX_NAME_LEN = 32`, the line made of 31
letters `a`, one letter `z` and a newline is accepted, but the name stored is only the
31 letters `a`: the last character of the name is removed in place of the newline. (A
name of 31 characters is stored as it was typed.) -/
theorem username_of_full_length_loses_last_character :
    storedName (username_attempt 32 false (List.replicate 31 97 ++ [122] ++ [10])).2 =
        some (List.replicate 31 97) ∧
      storedName (username_attempt 32 false (List.replicate 30 97 ++ [122] ++ [10])).2 =
        some (List.replicate 30 97 ++ [122]) := by
  constructor <;> decide

/-! ## Claims about the event loop -/

/-- C8: in a pass of the loop in which the socket is ready and the bytes received,
read as a C string, are exactly `bye`, the client prints the notice of the shutdown
by the server, closes the socket and exits with status 0; the run has no read of the
standard input and no `send` in or after that pass, whether or not the standard input
was ready too. -/
theorem peer_bye_ends_the_run (c : Config) (username : List Nat) (w : Wakeup)
    (ws : List Wakeup) (st : LoopState) (data : List Nat)
    (hrun : st.running ≠ 0) (hready : w.socketReady = true)
    (hrecv : w.recv = RecvOutcome.data data)
    (hbye : cstr (data.take c.BUFLEN ++ [0]) = bye)
    (hbuf : st.inbuf.length = c.BUFLEN + 1) :
    event_loop c username (w :: ws) st =
        [Action.select] ++ (if w.selectFails then [Action.say Msg.selectFailed] else []) ++
          [Action.recv, Action.say Msg.serverShutdown, Action.close,
            Action.exit EXIT_SUCCESS] ∧
      Action.readStdin ∉ event_loop c username (w :: ws) st ∧
      ∀ frame, Action.send frame ∉ event_loop c username (w :: ws) st := by
  have hne : data.take c.BUFLEN ≠ [] := by
    intro e
    rw [e] at hbye
    simp [cstr, strlen, bye] at hbye
  have hrun : event_loop c username (w :: ws) st =
      [Action.select] ++ (if w.selectFails then [Action.say Msg.selectFailed] else []) ++
        [Action.recv, Action.say Msg.serverShutdown, Action.close,
          Action.exit EXIT_SUCCESS] := by
    simp only [event_loop, hrun, if_false, loop_body, hready, if_true, hrecv,
      handle_client_socket_data c.BUFLEN data st.inbuf hne hbuf, hbye]
  rw [hrun]
  refine ⟨rfl, ?_, ?_⟩
  · cases w.selectFails <;> simp
  · intro frame
    cases w.selectFails <;> simp

/-- C8, witness: the loop is interactive, the socket delivers `bye` and the operator
has typed `hi` in the same wake-up. -/
theorem peer_bye_ends_the_run_witness :
    event_loop sampleConfig sampleName
        [⟨false, true, true, RecvOutcome.data bye, false, false⟩]
        ⟨1, [104, 105, 10], List.replicate 1061 0, List.replicate 1025 0⟩ =
        [Action.select] ++ (if false then [Action.say Msg.selectFailed] else []) ++
          [Action.recv, Action.say Msg.serverShutdown, Action.close,
            Action.exit EXIT_SUCCESS] ∧
      Action.readStdin ∉ event_loop sampleConfig sampleName
        [⟨false, true, true, RecvOutcome.data bye, false, false⟩]
        ⟨1, [104, 105, 10], List.replicate 1061 0, List.replicate 1025 0⟩ ∧
      ∀ frame, Action.send frame ∉ event_loop sampleConfig sampleName
        [⟨false, true, true, RecvOutcome.data bye, false, false⟩]
        ⟨1, [104, 105, 10], List.replicate 1061 0, List.replicate 1025 0⟩ :=
  peer_bye_ends_the_run sampleConfig sampleName
    ⟨false, true, true, RecvOutcome.data bye, false, false⟩ []
    ⟨1, [104, 105, 10], List.replicate 1061 0, List.replicate 1025 0⟩ bye
    (by decide) rfl rfl (by decide) (by rw [List.length_replicate]; rfl)

/-- C5, the code at the failing input: the loop is interactive, `MAX_MSG_LEN = 1024`,
and the operator's input is one line of 1025 bytes (NUL, then 1024 letters `a`) and
its newline, followed by the line `b`; the standard input is ready in two wake-ups.
The first call of `handle_stdin` takes 1023 bytes and returns without a report and
without the drain; the second call then finds `aa` and a newline and sends the frame
`aa`: a piece of the oversized line, not a complete line of the input. -/
theorem piece_of_oversized_line_is_sent :
    event_loop sampleConfig sampleName
        [⟨false, false, true, RecvOutcome.error 0, false, false⟩,
          ⟨false, false, true, RecvOutcome.error 0, false, false⟩]
        ⟨1, (0 :: List.replicate 1024 97) ++ 10 :: [98, 10], List.replicate 1061 0,
          List.replicate 1025 0⟩ =
      [Action.select, Action.readStdin, Action.prompt [97, 108], Action.flush,
        Action.select, Action.readStdin, Action.send [97, 97, 0], Action.prompt [97, 108],
        Action.flush, Action.select] := by
  decide

/-- C1, the code at four failing inputs: the loop is left after `recv` failed with
`ECONNRESET` (104), after `fgets` failed, after `send` failed, and after `select`
failed (the descriptor sets are then as they were set, both tests succeed, and `recv`
fails with `EAGAIN`, 11). Each time the failure is reported and the process then ends
with status 0. -/
theorem io_failure_exits_with_success :
    main_connected sampleConfig false false sampleName [104, 105, 10]
        [⟨false, true, false, RecvOutcome.error 104, false, false⟩] =
      [Action.send [97, 108, 0], Action.say Msg.newline, Action.select, Action.recv,
        Action.say Msg.receiveWarning, Action.say Msg.handleClientSocketFailed,
        Action.prompt [97, 108], Action.flush, Action.close, Action.exit 0] ∧
    event_loop sampleConfig sampleName [⟨false, false, true, RecvOutcome.error 0, true, false⟩]
        ⟨1, [104, 105, 10], List.replicate 1061 0, List.replicate 1025 0⟩ =
      [Action.select, Action.readStdin, Action.say Msg.fgetsFailed,
        Action.say Msg.handleStdinFailed, Action.prompt [97, 108], Action.flush,
        Action.close, Action.exit 0] ∧
    event_loop sampleConfig sampleName [⟨false, false, true, RecvOutcome.error 0, false, true⟩]
        ⟨1, [104, 105, 10], List.replicate 1061 0, List.replicate 1025 0⟩ =
      [Action.select, Action.readStdin, Action.send [104, 105, 0], Action.say Msg.sendFailed,
        Action.say Msg.handleStdinFailed, Action.prompt [97, 108], Action.flush,
        Action.close, Action.exit 0] ∧
    event_loop sampleConfig sampleName [⟨true, true, true, RecvOutcome.error 11, false, false⟩]
        ⟨1, [104, 105, 10], List.replicate 1061 0, List.replicate 1025 0⟩ =
      [Action.select, Action.say Msg.selectFailed, Action.recv, Action.say Msg.receiveWarning,
        Action.say Msg.handleClientSocketFailed, Action.readStdin, Action.send [104, 105, 0],
        Action.prompt [97, 108], Action.flush, Action.close, Action.exit 0] := by
  refine ⟨?_, ?_, ?_, ?_⟩ <;> decide

/-- C2, the code at three failing inputs. In the first pass of the loop the operator
has typed `hi` and the standard input is ready, and (1) the socket is ready and `recv`
fails with `ECONNRESET` (104), or (2) the socket is ready and `recv` is interrupted
(`EINTR`), or (3) `select` fails, which leaves both descriptors set, and `recv` fails
with `EAGAIN` (11). No receive has succeeded, yet each time the line is read and the
frame `hi` is sent. -/
theorem input_is_handled_before_any_successful_receive :
    main_connected sampleConfig false false sampleName [104, 105, 10]
        [⟨false, true, true, RecvOutcome.error 104, false, false⟩] =
      [Action.send [97, 108, 0], Action.say Msg.newline, Action.select, Action.recv,
        Action.say Msg.receiveWarning, Action.say Msg.handleClientSocketFailed,
        Action.readStdin, Action.send [104, 105, 0],
        Action.prompt [97, 108], Action.flush, Action.close, Action.exit 0] ∧
    main_connected sampleConfig false false sampleName [104, 105, 10]
        [⟨false, true, true, RecvOutcome.error EINTR, false, false⟩] =
      [Action.send [97, 108, 0], Action.say Msg.newline, Action.select, Action.recv,
        Action.storeOutside (-1), Action.display [], Action.say Msg.newline,
        Action.readStdin, Action.send [104, 105, 0],
        Action.prompt [97, 108], Action.flush, Action.select] ∧
    main_connected sampleConfig false false sampleName [104, 105, 10]
        [⟨true, true, true, RecvOutcome.error 11, false, false⟩] =
      [Action.send [97, 108, 0], Action.say Msg.newline, Action.select,
        Action.say Msg.selectFailed, Action.recv, Action.say Msg.receiveWarning,
        Action.say Msg.handleClientSocketFailed, Action.readStdin,
        Action.send [104, 105, 0], Action.prompt [97, 108], Action.flush, Action.close,
        Action.exit 0] := by
  refine ⟨?_, ?_, ?_⟩ <;> decide

/-! ## The socket is closed once -/

theorem quiet_append {a b : List Action} : Quiet (a ++ b) ↔ Quiet a ∧ Quiet b := by
  simp only [Quiet, List.mem_append]
  constructor
  · intro h; exact ⟨fun x hx => h x (Or.inl hx), fun x hx => h x (Or.inr hx)⟩
  · rintro ⟨h1, h2⟩ x (hx | hx)
    · exact h1 x hx
    · exact h2 x hx

theorem ended_append {a b : List Action} (ha : Quiet a) (hb : Ended b) : Ended (a ++ b) := by
  obtain ⟨pre, s, hq, rfl⟩ := hb
  exact ⟨a ++ pre, s, quiet_append.2 ⟨ha, hq⟩, by simp⟩

theorem quiet_not_terminated {tr : List Action} (h : Quiet tr) (s : Nat) :
    Action.exit s ∉ tr := by
  intro hs
  have := h _ hs
  simp [Action.goesOn] at this

theorem afterClose_append (pre rest : List Action) (h : Quiet pre) :
    afterClose (pre ++ Action.close :: rest) = rest := by
  induction pre with
  | nil => simp [afterClose]
  | cons a pre ih =>
    have ha : a ≠ Action.close := by
      intro e
      have := h a (by simp)
      rw [e] at this
      simp [Action.goesOn] at this
    have hp : Quiet pre := fun x hx => h x (by simp [hx])
    simp [afterClose, ha, ih hp]

theorem ended_closed_once {tr : List Action} (h : Ended tr) :
    closeCount tr = 1 ∧ ∀ a ∈ afterClose tr, a.usesSocket = false := by
  obtain ⟨pre, s, hq, rfl⟩ := h
  constructor
  · have h0 : List.count Action.close pre = 0 := by
      rw [List.count_eq_zero]
      intro hm
      have := hq _ hm
      simp [Action.goesOn] at this
    simp [closeCount, List.count_append, h0, List.count_cons]
  · rw [afterClose_append pre _ hq]
    simp [Action.usesSocket]

theorem handle_stdin_shape (M : Nat) (rf sf : Bool) (stdin : List Nat) :
    (∃ code, (handle_stdin M rf sf stdin).ret = Ret.returned code ∧
        Quiet (handle_stdin M rf sf stdin).actions) ∨
      (∃ s, (handle_stdin M rf sf stdin).ret = Ret.exited s ∧
        Ended (handle_stdin M rf sf stdin).actions) := by
  unfold handle_stdin
  simp only []
  repeat' split
  all_goals first
    | (left; exact ⟨_, rfl, by simp [Quiet, Action.goesOn]⟩)
    | (right; exact ⟨_, rfl, [_, _, _], _, by simp [Quiet, Action.goesOn], rfl⟩)

theorem storeByte_quiet (buf : List Nat) (i : Int) (b : Nat) : Quiet (storeByte buf i b).2 := by
  unfold storeByte
  split <;> simp [Quiet, Action.goesOn]

theorem handle_client_socket_shape (B : Nat) (r : RecvOutcome) (inbuf : List Nat) :
    (∃ code, (handle_client_socket B r inbuf).ret = Ret.returned code ∧
        Quiet (handle_client_socket B r inbuf).actions) ∨
      (∃ s, (handle_client_socket B r inbuf).ret = Ret.exited s ∧
        Ended (handle_client_socket B r inbuf).actions) := by
  unfold handle_client_socket
  simp only []
  have hq := storeByte_quiet (recvStore B inbuf r) (recvCount B r) 0
  repeat' split
  · left; exact ⟨_, rfl, by simp [Quiet, Action.goesOn]⟩
  · right; exact ⟨_, rfl, [_, _], _, by simp [Quiet, Action.goesOn], rfl⟩
  · right
    refine ⟨_, rfl, [Action.recv] ++ (storeByte (recvStore B inbuf r) (recvCount B r) 0).2 ++
      [Action.say Msg.serverShutdown], EXIT_SUCCESS, ?_, by simp⟩
    rw [quiet_append, quiet_append]
    exact ⟨⟨by simp [Quiet, Action.goesOn], hq⟩, by simp [Quiet, Action.goesOn]⟩
  · left
    refine ⟨_, rfl, ?_⟩
    rw [quiet_append, quiet_append]
    exact ⟨⟨by simp [Quiet, Action.goesOn], hq⟩, by simp [Quiet, Action.goesOn]⟩

theorem promptActions_quiet (tty : Bool) (username : List Nat) :
    Quiet (promptActions tty username) := by
  unfold promptActions
  cases tty <;> simp [Quiet, Action.goesOn]

theorem loop_stdin_part_shape (c : Config) (username : List Nat) (w : Wakeup) (st : LoopState) :
    StepShape (loop_stdin_part c username w st) := by
  have hp := promptActions_quiet c.tty username
  have hfirst : Quiet (if st.running = 2 then [Action.say Msg.newline] else []) := by
    split <;> simp [Quiet, Action.goesOn]
  unfold loop_stdin_part
  simp only []
  split
  · split
    · rcases handle_stdin_shape c.MAX_MSG_LEN w.readFails w.sendFails st.stdin with
        ⟨code, hret, hq⟩ | ⟨s, hret, he⟩
      · right
        simp only [hret]
        split
        · exact ⟨by simp, by
            rw [quiet_append, quiet_append, quiet_append]
            exact ⟨⟨⟨hfirst, hq⟩, by simp [Quiet, Action.goesOn]⟩, hp⟩⟩
        · split
          · exact ⟨by simp, by
              rw [quiet_append, quiet_append]
              exact ⟨⟨hfirst, hq⟩, by simp [Quiet, Action.goesOn]⟩⟩
          · exact ⟨by simp, by
              rw [quiet_append, quiet_append]
              exact ⟨⟨hfirst, hq⟩, hp⟩⟩
      · left
        simp only [hret]
        exact ⟨trivial, ended_append hfirst he⟩
    · right
      exact ⟨by simp, by rw [quiet_append]; exact ⟨hfirst, hp⟩⟩
  · right
    exact ⟨by simp, by simp [Quiet]⟩

theorem loop_body_shape (c : Config) (username : List Nat) (w : Wakeup) (st : LoopState) :
    StepShape (loop_body c username w st) := by
  have h0 : Quiet ([Action.select] ++
      (if w.selectFails then [Action.say Msg.selectFailed] else [])) := by
    cases w.selectFails <;> simp [Quiet, Action.goesOn]
  unfold loop_body
  simp only []
  split
  · rcases handle_client_socket_shape c.BUFLEN w.recv st.inbuf with
      ⟨code, hret, hq⟩ | ⟨s, hret, he⟩
    · simp only [hret]
      have h1 : Quiet (if code = -1 then [Action.say Msg.handleClientSocketFailed] else []) := by
        split <;> simp [Quiet, Action.goesOn]
      rcases loop_stdin_part_shape c username w
          ⟨if code = -1 then 0 else
              if (if w.selectFails then 0 else st.running) = 3 then 2
              else (if w.selectFails then 0 else st.running),
            st.stdin, (handle_client_socket c.BUFLEN w.recv st.inbuf).inbuf, st.outbuf⟩ with
        ⟨hh, he⟩ | ⟨hh, hq2⟩
      · left
        exact ⟨hh, ended_append (quiet_append.2 ⟨quiet_append.2 ⟨h0, hq⟩, h1⟩) he⟩
      · right
        exact ⟨hh, quiet_append.2 ⟨quiet_append.2 ⟨quiet_append.2 ⟨h0, hq⟩, h1⟩, hq2⟩⟩
    · left
      simp only [hret]
      exact ⟨trivial, ended_append h0 he⟩
  · rcases loop_stdin_part_shape c username w
        ⟨if w.selectFails then 0 else st.running, st.stdin, st.inbuf, st.outbuf⟩ with
      ⟨hh, he⟩ | ⟨hh, hq2⟩
    · left; exact ⟨hh, ended_append h0 he⟩
    · right; exact ⟨hh, quiet_append.2 ⟨h0, hq2⟩⟩

theorem afterLoop_ended : Ended afterLoop :=
  ⟨[], EXIT_SUCCESS, by simp [Quiet], rfl⟩

theorem event_loop_shape (c : Config) (username : List Nat) (ws : List Wakeup) (st : LoopState) :
    Quiet (event_loop c username ws st) ∨ Ended (event_loop c username ws st) := by
  induction ws generalizing st with
  | nil =>
    unfold event_loop
    split
    · right; exact afterLoop_ended
    · left; simp [Quiet, Action.goesOn]
  | cons w ws ih =>
    unfold event_loop
    split
    · right; exact afterLoop_ended
    · have hs := loop_body_shape c username w st
      rcases hb : loop_body c username w st with ⟨acts, step⟩
      rw [hb] at hs
      cases step with
      | next st1 =>
        rcases hs with ⟨hh, -⟩ | ⟨-, hq⟩
        · simp at hh
        · rcases ih st1 with h | h
          · left; exact quiet_append.2 ⟨hq, h⟩
          · right; exact ended_append hq h
      | brk =>
        rcases hs with ⟨hh, -⟩ | ⟨-, hq⟩
        · simp at hh
        · right; exact ended_append hq afterLoop_ended
      | halt =>
        rcases hs with ⟨-, he⟩ | ⟨hh, -⟩
        · right; exact he
        · simp at hh

theorem main_connected_shape (c : Config) (ff sf : Bool) (username stdin : List Nat)
    (ws : List Wakeup) :
    Quiet (main_connected c ff sf username stdin ws) ∨
      Ended (main_connected c ff sf username stdin ws) := by
  unfold main_connected
  simp only []
  split
  · right; exact ⟨[_], _, by simp [Quiet, Action.goesOn], rfl⟩
  · split
    · right; exact ⟨[_, _], _, by simp [Quiet, Action.goesOn], rfl⟩
    · have hq : Quiet [Action.send (username.take (strlen username + 1)),
          Action.say Msg.newline] := by simp [Quiet, Action.goesOn]
      rcases event_loop_shape c username ws (initialState c stdin) with h | h
      · left; exact quiet_append.2 ⟨hq, h⟩
      · right; exact ended_append hq h

theorem username_attempt_says (N : Nat) (tty : Bool) (stdin : List Nat) :
    ∀ a ∈ (username_attempt N tty stdin).1, ∃ m, a = Action.say m := by
  unfold username_attempt
  simp only []
  repeat' split
  all_goals simp

theorem username_loop_says (N : Nat) (tty : Bool) (fuel : Nat) (stdin : List Nat) :
    ∀ a ∈ (username_loop N tty fuel stdin).1, ∃ m, a = Action.say m := by
  induction fuel generalizing stdin with
  | zero => simp [username_loop]
  | succ fuel ih =>
    have ha := username_attempt_says N tty stdin
    unfold username_loop
    rcases hu : username_attempt N tty stdin with ⟨acts, res⟩
    rw [hu] at ha
    cases res with
    | accepted username rest => exact ha
    | failed => exact ha
    | again rest =>
      intro a hmem
      rcases List.mem_append.1 hmem with h | h
      · exact ha a h
      · exact ih rest a h

theorem says_quiet {acts : List Action} (h : ∀ a ∈ acts, ∃ m, a = Action.say m) :
    Quiet acts ∧ Action.connect true ∉ acts := by
  constructor
  · intro a ha
    obtain ⟨m, rfl⟩ := h a ha
    rfl
  · intro hc
    obtain ⟨m, hm⟩ := h _ hc
    cases hm

theorem main_after_connect (c : Config) (e : Startup) (stdin : List Nat) (ws : List Wakeup)
    (h : Action.connect true ∈ main c e stdin ws) :
    ∃ pre username rest, Quiet pre ∧
      main c e stdin ws =
        pre ++ main_connected c e.fcntlFails e.sendNameFails username rest ws := by
  unfold main at h ⊢
  by_cases hargc : e.argc ≠ 3
  · rw [if_pos hargc] at h; simp at h
  · rw [if_neg hargc] at h ⊢
    cases haddr : e.addressValid with
    | false => simp [haddr] at h
    | true =>
      simp only [haddr, Bool.not_true, Bool.false_eq_true, if_false] at h ⊢
      cases hport : e.port with
      | none => simp [hport] at h
      | some server_port =>
        simp only [hport] at h ⊢
        by_cases hrange : server_port < 1024 ∨ server_port > 65535
        · rw [if_pos hrange] at h; simp at h
        · rw [if_neg hrange] at h ⊢
          have hs := username_loop_says c.MAX_NAME_LEN c.tty (stdin.length + 1) stdin
          rcases hu : username_loop c.MAX_NAME_LEN c.tty (stdin.length + 1) stdin with
            ⟨acts, res⟩
          rw [hu] at hs h
          obtain ⟨hq, hnc⟩ := says_quiet hs
          cases res with
          | unfinished => exact absurd h hnc
          | failed =>
            simp only [List.mem_append] at h
            rcases h with h | h
            · exact absurd h hnc
            · simp at h
          | valid username rest =>
            simp only at h ⊢
            cases hsock : e.socketFails with
            | true =>
              simp only [hsock, if_true, List.mem_append] at h
              rcases h with h | h
              · exact absurd h hnc
              · simp at h
            | false =>
              simp only [hsock, Bool.false_eq_true, if_false] at h ⊢
              cases hconn : e.connectFails with
              | true =>
                simp only [hconn, if_true, List.mem_append] at h
                rcases h with h | h
                · exact absurd h hnc
                · simp at h
              | false =>
                simp only [Bool.false_eq_true, if_false]
                refine ⟨acts ++ [Action.say Msg.hello, Action.connect true], username, rest,
                  ?_, rfl⟩
                exact quiet_append.2 ⟨hq, by simp [Quiet, Action.goesOn]⟩

/-- C7: on every run of `main` in which `connect` succeeded and the process ends,
`close` is called on the socket exactly once, and nothing after that `close` is a
`send` or a `recv`. -/
theorem socket_closed_exactly_once (c : Config) (e : Startup) (stdin : List Nat)
    (ws : List Wakeup)
    (hconnected : Action.connect true ∈ main c e stdin ws)
    (hends : ∃ status, Action.exit status ∈ main c e stdin ws) :
    closeCount (main c e stdin ws) = 1 ∧
      ∀ a ∈ afterClose (main c e stdin ws), a.usesSocket = false := by
  obtain ⟨pre, username, rest, hq, hmain⟩ := main_after_connect c e stdin ws hconnected
  rw [hmain] at hends ⊢
  rcases main_connected_shape c e.fcntlFails e.sendNameFails username rest ws with h | h
  · obtain ⟨status, hs⟩ := hends
    exact absurd hs (quiet_not_terminated (quiet_append.2 ⟨hq, h⟩) status)
  · exact ended_closed_once (ended_append hq h)

/-- C7, witness: the operator enters the name `al`, the server greets, the operator
types `hi` and then `bye`. -/
theorem socket_closed_exactly_once_witness :
    Action.connect true ∈ main sampleConfig ⟨3, true, some 5000, false, false, false, false⟩
        [97, 108, 10, 104, 105, 10, 98, 121, 101, 10]
        [⟨false, true, false, RecvOutcome.data [104, 105, 0], false, false⟩,
          ⟨false, false, true, RecvOutcome.error 0, false, false⟩,
          ⟨false, false, true, RecvOutcome.error 0, false, false⟩] ∧
      (closeCount (main sampleConfig ⟨3, true, some 5000, false, false, false, false⟩
        [97, 108, 10, 104, 105, 10, 98, 121, 101, 10]
        [⟨false, true, false, RecvOutcome.data [104, 105, 0], false, false⟩,
          ⟨false, false, true, RecvOutcome.error 0, false, false⟩,
          ⟨false, false, true, RecvOutcome.error 0, false, false⟩]) = 1 ∧
      ∀ a ∈ afterClose (main sampleConfig ⟨3, true, some 5000, false, false, false, false⟩
        [97, 108, 10, 104, 105, 10, 98, 121, 101, 10]
        [⟨false, true, false, RecvOutcome.data [104, 105, 0], false, false⟩,
          ⟨false, false, true, RecvOutcome.error 0, false, false⟩,
          ⟨false, false, true, RecvOutcome.error 0, false, false⟩]), a.usesSocket = false) :=
  ⟨by decide,
    socket_closed_exactly_once sampleConfig ⟨3, true, some 5000, false, false, false, false⟩
      [97, 108, 10, 104, 105, 10, 98, 121, 101, 10]
      [⟨false, true, false, RecvOutcome.data [104, 105, 0], false, false⟩,
        ⟨false, false, true, RecvOutcome.error 0, false, false⟩,
        ⟨false, false, true, RecvOutcome.error 0, false, false⟩]
      (by decide) ⟨0, by decide⟩⟩

/-- Each way of ending the process after `connect` that the spec lists does occur:
failure of `fcntl`, failure of the `send` of the name, `bye` typed, `bye` received, a
receive of zero bytes, end of the operator's input, and the loop left after a failed
receive. -/
theorem exits_after_connect_occur :
    main_connected sampleConfig true false sampleName [] [] =
      [Action.say Msg.fcntlFailed, Action.close, Action.exit 1] ∧
    main_connected sampleConfig false true sampleName [] [] =
      [Action.send [97, 108, 0], Action.say Msg.sendUsernameFailed, Action.close,
        Action.exit 1] ∧
    event_loop sampleConfig sampleName [⟨false, false, true, RecvOutcome.error 0, false, false⟩]
        ⟨1, [98, 121, 101, 10], List.replicate 1061 0, List.replicate 1025 0⟩ =
      [Action.select, Action.readStdin, Action.send [98, 121, 101, 0], Action.say Msg.goodbye,
        Action.close, Action.exit 0] ∧
    event_loop sampleConfig sampleName
        [⟨false, true, false, RecvOutcome.data [98, 121, 101, 0], false, false⟩]
        (initialState sampleConfig []) =
      [Action.select, Action.recv, Action.say Msg.serverShutdown, Action.close,
        Action.exit 0] ∧
    event_loop sampleConfig sampleName [⟨false, true, false, RecvOutcome.data [], false, false⟩]
        (initialState sampleConfig []) =
      [Action.select, Action.recv, Action.say Msg.connectionLost, Action.close,
        Action.exit 1] ∧
    event_loop sampleConfig sampleName [⟨false, false, true, RecvOutcome.error 0, false, false⟩]
        ⟨1, [], List.replicate 1061 0, List.replicate 1025 0⟩ =
      [Action.select, Action.readStdin, Action.say Msg.newline, Action.close, Action.exit 0] ∧
    event_loop sampleConfig sampleName
        [⟨false, true, false, RecvOutcome.error 104, false, false⟩]
        (initialState sampleConfig []) =
      [Action.select, Action.recv, Action.say Msg.receiveWarning,
        Action.say Msg.handleClientSocketFailed, Action.prompt [97, 108], Action.flush,
        Action.close, Action.exit 0] := by
  refine ⟨?_, ?_, ?_, ?_, ?_, ?_, ?_⟩ <;> decide

/-! ## Lines typed in the interactive state -/

theorem sentFrames_append (a b : List Action) :
    sentFrames (a ++ b) = sentFrames a ++ sentFrames b := by
  simp [sentFrames, List.filterMap_append]

theorem sentFrames_promptActions (tty : Bool) (username : List Nat) :
    sentFrames (promptActions tty username) = [] := by
  cases tty <;> simp [sentFrames, promptActions, Action.sent]

theorem loop_stdin_part_line (c : Config) (username : List Nat) (w : Wakeup)
    (inbuf outbuf l tail : List Nat) (hw : w.stdinReady = true) (hrf : w.readFails = false)
    (hsf : w.sendFails = false) (hl : Acceptable c.MAX_MSG_LEN l) (hb : l ≠ bye) :
    ∃ outbuf2, loop_stdin_part c username w ⟨1, l ++ 10 :: tail, inbuf, outbuf⟩ =
      ([Action.readStdin, Action.send (l ++ [0])] ++ promptActions c.tty username,
        Step.next ⟨1, tail, inbuf, outbuf2⟩) := by
  obtain ⟨h1, h2, -, h4⟩ := handle_stdin_accepts c.MAX_MSG_LEN false l tail hl
  simp only [afterSend, Bool.false_eq_true, if_false, if_neg hb, List.append_nil] at h1 h2
  refine ⟨(handle_stdin c.MAX_MSG_LEN false false (l ++ 10 :: tail)).outbuf, ?_⟩
  unfold loop_stdin_part
  simp only [hw, hrf, hsf, h1, h2, h4]
  simp

theorem loop_stdin_part_bye (c : Config) (username : List Nat) (w : Wakeup)
    (inbuf outbuf rest : List Nat) (hw : w.stdinReady = true) (hrf : w.readFails = false)
    (hsf : w.sendFails = false) (hM : Acceptable c.MAX_MSG_LEN bye) :
    loop_stdin_part c username w ⟨1, bye ++ 10 :: rest, inbuf, outbuf⟩ =
      ([Action.readStdin, Action.send (bye ++ [0]), Action.say Msg.goodbye, Action.close,
          Action.exit EXIT_SUCCESS], Step.halt) := by
  obtain ⟨h1, h2, -, -⟩ := handle_stdin_accepts c.MAX_MSG_LEN false bye rest hM
  simp only [afterSend, Bool.false_eq_true, if_false, if_true] at h1 h2
  unfold loop_stdin_part
  simp only [hw, hrf, hsf, h1, h2]
  simp

theorem loop_stdin_part_idle (c : Config) (username : List Nat) (w : Wakeup)
    (stdin inbuf outbuf : List Nat) (hw : w.stdinReady = false) :
    loop_stdin_part c username w ⟨1, stdin, inbuf, outbuf⟩ =
      (promptActions c.tty username, Step.next ⟨1, stdin, inbuf, outbuf⟩) := by
  unfold loop_stdin_part
  simp [hw]

theorem loop_body_calm (c : Config) (username : List Nat) (w : Wakeup)
    (stdin inbuf outbuf : List Nat) (hw : w.calm c) (hbuf : inbuf.length = c.BUFLEN + 1) :
    ∃ pre inbuf2, sentFrames pre = [] ∧ inbuf2.length = c.BUFLEN + 1 ∧
      loop_body c username w ⟨1, stdin, inbuf, outbuf⟩ =
        (pre ++ (loop_stdin_part c username w ⟨1, stdin, inbuf2, outbuf⟩).1,
          (loop_stdin_part c username w ⟨1, stdin, inbuf2, outbuf⟩).2) := by
  obtain ⟨hsel, -, -, hsock⟩ := hw
  cases hr : w.socketReady with
  | false =>
    refine ⟨[Action.select], inbuf, by simp [sentFrames, Action.sent], hbuf, ?_⟩
    unfold loop_body
    simp [hsel, hr]
  | true =>
    have hord := hsock hr
    cases hrecv : w.recv with
    | error errno => rw [hrecv] at hord; simp [RecvOutcome.ordinary] at hord
    | data data =>
    rw [hrecv] at hord
    obtain ⟨hne, hnb⟩ : data.take c.BUFLEN ≠ [] ∧ cstr (data.take c.BUFLEN ++ [0]) ≠ bye := by
      simpa [RecvOutcome.ordinary] using hord
    refine ⟨[Action.select, Action.recv, Action.display (cstr (data.take c.BUFLEN ++ [0]))],
      inbufAfter (data.take c.BUFLEN) inbuf, by simp [sentFrames, Action.sent],
      inbufAfter_length _ _ _ (by simp) hbuf, ?_⟩
    unfold loop_body
    simp only [hsel, hr, hrecv, handle_client_socket_data c.BUFLEN data inbuf hne hbuf,
      if_neg hnb]
    simp

theorem typedLines_bye (rest : List Nat) :
    typedLines ([] ++ [bye]) ++ rest = bye ++ 10 :: rest := by
  simp [typedLines]

theorem typedLines_cons (l : List Nat) (ls : List (List Nat)) (rest : List Nat) :
    typedLines (l :: ls ++ [bye]) ++ rest = l ++ 10 :: (typedLines (ls ++ [bye]) ++ rest) := by
  simp [typedLines]

theorem event_loop_typed_lines (c : Config) (username rest : List Nat)
    (hM : Acceptable c.MAX_MSG_LEN bye) :
    ∀ (ws : List Wakeup) (lines : List (List Nat)) (inbuf outbuf : List Nat),
      (∀ l ∈ lines, Acceptable c.MAX_MSG_LEN l ∧ l ≠ bye) →
      (∀ w ∈ ws, w.calm c) →
      lines.length < ws.countP (fun w => w.stdinReady) →
      inbuf.length = c.BUFLEN + 1 →
      sentFrames (event_loop c username ws
          ⟨1, typedLines (lines ++ [bye]) ++ rest, inbuf, outbuf⟩) =
          (lines ++ [bye]).map (fun l => l ++ [0]) ∧
        ∃ pre, event_loop c username ws
            ⟨1, typedLines (lines ++ [bye]) ++ rest, inbuf, outbuf⟩ =
          pre ++ [Action.send (bye ++ [0]), Action.say Msg.goodbye, Action.close,
            Action.exit EXIT_SUCCESS] := by
  intro ws
  induction ws with
  | nil =>
    intro lines inbuf outbuf _ _ hcount _
    simp at hcount
  | cons w ws ih =>
    intro lines inbuf outbuf hlines hcalm hcount hbuf
    have hw : w.calm c := hcalm w (by simp)
    have hws : ∀ w2 ∈ ws, w2.calm c := fun w2 h2 => hcalm w2 (by simp [h2])
    obtain ⟨pre, inbuf2, hpre, hbuf2, hbody⟩ := loop_body_calm c username w
      (typedLines (lines ++ [bye]) ++ rest) inbuf outbuf hw hbuf
    have hrun : (1 : Nat) ≠ 0 := by decide
    cases hsr : w.stdinReady with
    | false =>
      rw [loop_stdin_part_idle c username w _ inbuf2 outbuf hsr] at hbody
      have hc2 : lines.length < ws.countP (fun w => w.stdinReady) := by
        simpa [List.countP_cons, hsr] using hcount
      obtain ⟨ih1, pre2, ih2⟩ := ih lines inbuf2 outbuf hlines hws hc2 hbuf2
      have hev : event_loop c username (w :: ws)
          ⟨1, typedLines (lines ++ [bye]) ++ rest, inbuf, outbuf⟩ =
          (pre ++ promptActions c.tty username) ++ event_loop c username ws
            ⟨1, typedLines (lines ++ [bye]) ++ rest, inbuf2, outbuf⟩ := by
        rw [event_loop, if_neg hrun, hbody]
      rw [hev]
      constructor
      · rw [sentFrames_append, sentFrames_append, hpre, sentFrames_promptActions, ih1]
        simp
      · exact ⟨(pre ++ promptActions c.tty username) ++ pre2, by rw [ih2]; simp⟩
    | true =>
      cases lines with
      | nil =>
        rw [typedLines_bye] at hbody ⊢
        rw [loop_stdin_part_bye c username w inbuf2 outbuf rest hsr hw.2.1 hw.2.2.1 hM] at hbody
        have hev : event_loop c username (w :: ws) ⟨1, bye ++ 10 :: rest, inbuf, outbuf⟩ =
            pre ++ [Action.readStdin, Action.send (bye ++ [0]), Action.say Msg.goodbye,
              Action.close, Action.exit EXIT_SUCCESS] := by
          rw [event_loop, if_neg hrun, hbody]
        rw [hev]
        constructor
        · rw [sentFrames_append, hpre]
          simp [sentFrames, Action.sent]
        · exact ⟨pre ++ [Action.readStdin], by simp⟩
      | cons l ls =>
        rw [typedLines_cons] at hbody ⊢
        have hl := hlines l (by simp)
        have hls : ∀ l2 ∈ ls, Acceptable c.MAX_MSG_LEN l2 ∧ l2 ≠ bye :=
          fun l2 h2 => hlines l2 (by simp [h2])
        obtain ⟨outbuf2, hpart⟩ := loop_stdin_part_line c username w inbuf2 outbuf l
          (typedLines (ls ++ [bye]) ++ rest) hsr hw.2.1 hw.2.2.1 hl.1 hl.2
        rw [hpart] at hbody
        have hc2 : ls.length < ws.countP (fun w => w.stdinReady) := by
          simpa [List.countP_cons, hsr] using hcount
        obtain ⟨ih1, pre2, ih2⟩ := ih ls inbuf2 outbuf2 hls hws hc2 hbuf2
        have hev : event_loop c username (w :: ws)
            ⟨1, l ++ 10 :: (typedLines (ls ++ [bye]) ++ rest), inbuf, outbuf⟩ =
            (pre ++ ([Action.readStdin, Action.send (l ++ [0])] ++
                promptActions c.tty username)) ++
              event_loop c username ws
                ⟨1, typedLines (ls ++ [bye]) ++ rest, inbuf2, outbuf2⟩ := by
          rw [event_loop, if_neg hrun, hbody]
        rw [hev]
        constructor
        · rw [sentFrames_append, sentFrames_append, sentFrames_append, hpre,
            sentFrames_promptActions, ih1]
          simp [sentFrames, Action.sent]
        · exact ⟨(pre ++ ([Action.readStdin, Action.send (l ++ [0])] ++
            promptActions c.tty username)) ++ pre2, by rw [ih2]; simp⟩

/-- C9, as the code has it. The loop is in its interactive state (`running = 1`) with
`inbuf` of its declared size, and `bye` is itself a line the code accepts. In every
wake-up `select`, `fgets` and `send` succeed, and the socket is either not ready or
delivers at least one byte whose text is not `bye` (so `recv` does not fail and the
peer neither closes nor asks for the shutdown). The operator types accepted lines other
than `bye` and then the line `bye`, and the standard input is ready in more wake-ups
than there are such lines. Then the frames sent are exactly those lines and then `bye`,
in that order, each as its text and one NUL; each of those lines makes `handle_stdin`
return 0 with no action besides the read and the `send`; and the run ends with the
`send` of `bye`, the text `Goodbye.`, the `close` and the exit with status 0. -/
theorem typed_lines_then_bye (c : Config) (username rest : List Nat) (ws : List Wakeup)
    (lines : List (List Nat)) (inbuf outbuf : List Nat)
    (hM : Acceptable c.MAX_MSG_LEN bye)
    (hlines : ∀ l ∈ lines, Acceptable c.MAX_MSG_LEN l ∧ l ≠ bye)
    (hcalm : ∀ w ∈ ws, w.calm c)
    (hready : lines.length < ws.countP (fun w => w.stdinReady))
    (hbuf : inbuf.length = c.BUFLEN + 1) :
    sentFrames (event_loop c username ws
        ⟨1, typedLines (lines ++ [bye]) ++ rest, inbuf, outbuf⟩) =
        (lines ++ [bye]).map (fun l => l ++ [0]) ∧
      (∀ l ∈ lines, ∀ tail,
        (handle_stdin c.MAX_MSG_LEN false false (l ++ 10 :: tail)).ret = Ret.returned 0 ∧
        (handle_stdin c.MAX_MSG_LEN false false (l ++ 10 :: tail)).actions =
          [Action.readStdin, Action.send (l ++ [0])] ∧
        (handle_stdin c.MAX_MSG_LEN false false (l ++ 10 :: tail)).stdin = tail) ∧
      ∃ pre, event_loop c username ws
          ⟨1, typedLines (lines ++ [bye]) ++ rest, inbuf, outbuf⟩ =
        pre ++ [Action.send (bye ++ [0]), Action.say Msg.goodbye, Action.close,
          Action.exit EXIT_SUCCESS] := by
  obtain ⟨h1, h2⟩ := event_loop_typed_lines c username rest hM ws lines inbuf outbuf
    hlines hcalm hready hbuf
  refine ⟨h1, ?_, h2⟩
  intro l hl tail
  obtain ⟨hacc, hnb⟩ := hlines l hl
  obtain ⟨a1, a2, -, a4⟩ := handle_stdin_accepts c.MAX_MSG_LEN false l tail hacc
  simp only [afterSend, Bool.false_eq_true, if_false, if_neg hnb, List.append_nil] at a1 a2
  exact ⟨a1, a2, a4⟩

/-- C9, witness: the operator types `hello` and then `bye`; a message of the server
arrives together with the first line. -/
theorem typed_lines_then_bye_witness :
    sentFrames (event_loop sampleConfig sampleName
        [⟨false, true, true, RecvOutcome.data [111, 107, 0], false, false⟩,
          ⟨false, false, true, RecvOutcome.error 0, false, false⟩]
        ⟨1, typedLines ([[104, 101, 108, 108, 111]] ++ [bye]) ++ [], List.replicate 1061 0,
          List.replicate 1025 0⟩) =
        ([[104, 101, 108, 108, 111]] ++ [bye]).map (fun l => l ++ [0]) ∧
      (∀ l ∈ [[104, 101, 108, 108, 111]], ∀ tail,
        (handle_stdin sampleConfig.MAX_MSG_LEN false false (l ++ 10 :: tail)).ret =
          Ret.returned 0 ∧
        (handle_stdin sampleConfig.MAX_MSG_LEN false false (l ++ 10 :: tail)).actions =
          [Action.readStdin, Action.send (l ++ [0])] ∧
        (handle_stdin sampleConfig.MAX_MSG_LEN false false (l ++ 10 :: tail)).stdin = tail) ∧
      ∃ pre, event_loop sampleConfig sampleName
          [⟨false, true, true, RecvOutcome.data [111, 107, 0], false, false⟩,
            ⟨false, false, true, RecvOutcome.error 0, false, false⟩]
          ⟨1, typedLines ([[104, 101, 108, 108, 111]] ++ [bye]) ++ [], List.replicate 1061 0,
            List.replicate 1025 0⟩ =
        pre ++ [Action.send (bye ++ [0]), Action.say Msg.goodbye, Action.close,
          Action.exit EXIT_SUCCESS] :=
  typed_lines_then_bye sampleConfig sampleName []
    [⟨false, true, true, RecvOutcome.data [111, 107, 0], false, false⟩,
      ⟨false, false, true, RecvOutcome.error 0, false, false⟩]
    [[104, 101, 108, 108, 111]] (List.replicate 1061 0) (List.replicate 1025 0)
    (by decide) (by decide)
    (by decide)
    (by decide) (by rw [List.length_replicate]; rfl)

/-- C9, as stated, fails. The loop is interactive, every `send` succeeds, the operator
types `hi` and then `bye`, and the standard input is ready in two wake-ups. The first
wake-up sends `hi`. In the second one (1) the server's `bye` arrives, or (2) the peer
has closed the connection, or (3) `fgets` fails; or already in the first one (4) `recv`
fails with `ECONNRESET` (104), or (5) `select` fails, leaving both descriptors set, and
`recv` fails with `EAGAIN` (11). Each time the process ends with `hi` as the only frame
sent: the operator's `bye` is never transmitted. -/
theorem typed_bye_is_not_sent_when_the_run_ends_first :
    sentFrames (event_loop sampleConfig sampleName
        [⟨false, false, true, RecvOutcome.error 0, false, false⟩,
          ⟨false, true, true, RecvOutcome.data bye, false, false⟩]
        ⟨1, typedLines ([[104, 105]] ++ [bye]) ++ [], List.replicate 1061 0,
          List.replicate 1025 0⟩) ≠ ([[104, 105]] ++ [bye]).map (fun l => l ++ [0]) ∧
    sentFrames (event_loop sampleConfig sampleName
        [⟨false, false, true, RecvOutcome.error 0, false, false⟩,
          ⟨false, true, true, RecvOutcome.data bye, false, false⟩]
        ⟨1, typedLines ([[104, 105]] ++ [bye]) ++ [], List.replicate 1061 0,
          List.replicate 1025 0⟩) = [[104, 105, 0]] ∧
    sentFrames (event_loop sampleConfig sampleName
        [⟨false, false, true, RecvOutcome.error 0, false, false⟩,
          ⟨false, true, true, RecvOutcome.data [], false, false⟩]
        ⟨1, typedLines ([[104, 105]] ++ [bye]) ++ [], List.replicate 1061 0,
          List.replicate 1025 0⟩) = [[104, 105, 0]] ∧
    sentFrames (event_loop sampleConfig sampleName
        [⟨false, false, true, RecvOutcome.error 0, false, false⟩,
          ⟨false, false, true, RecvOutcome.error 0, true, false⟩]
        ⟨1, typedLines ([[104, 105]] ++ [bye]) ++ [], List.replicate 1061 0,
          List.replicate 1025 0⟩) = [[104, 105, 0]] ∧
    sentFrames (event_loop sampleConfig sampleName
        [⟨false, true, true, RecvOutcome.error 104, false, false⟩,
          ⟨false, false, true, RecvOutcome.error 0, false, false⟩]
        ⟨1, typedLines ([[104, 105]] ++ [bye]) ++ [], List.replicate 1061 0,
          List.replicate 1025 0⟩) = [[104, 105, 0]] ∧
    sentFrames (event_loop sampleConfig sampleName
        [⟨true, true, true, RecvOutcome.error 11, false, false⟩,
          ⟨false, false, true, RecvOutcome.error 0, false, false⟩]
        ⟨1, typedLines ([[104, 105]] ++ [bye]) ++ [], List.replicate 1061 0,
          List.replicate 1025 0⟩) = [[104, 105, 0]] := by
  refine ⟨?_, ?_, ?_, ?_, ?_, ?_⟩ <;> decide

end ChatClient
